import Mathlib

/-!
Shallow embedding of `daemon/src/linux/proc_tracker.cpp` (the Linux
split-tunnel process tracker) together with proofs about its behaviour.

The embedding models:
  * the `/proc` probe (`ProcFs`) as queries over a snapshot value,
  * the cgroup writer as an assignment `pid → cgroup` updated by a list
    of writes (writing a pid to the parent cgroup moves it back to the
    default cgroup),
  * the rule controller (masquerade anchor, policy routes, source-IP
    rules, `rp_filter`) as explicit kernel-state fields, with
    `ip rule add` appending a rule and `ip rule del` erasing the first
    matching rule,
  * the reconciler (`ProcTracker`) as a state structure with one Lean
    function per C++ member function, and
  * the public operations as a step relation over traces.

External effects (`shellExecute`, socket calls, file writes) are modelled
by their documented effect on the observable kernel state; fallible
external calls take explicit success/failure inputs.
-/

set_option maxHeartbeats 1000000

namespace ProcTrackerModel

/-- The empty string, used by the C++ code for absent paths and addresses. -/
def emptyStr : String := ""

/-- The cgroup a pid can be assigned to: the VPN-exclusions cgroup
(`Path::VpnExclusionsFile`), the VPN-only cgroup (`Path::VpnOnlyFile`), or
the parent/default cgroup (`Path::ParentVpnExclusionsFile`, writing to
which is how a pid is removed from the specialized cgroups). -/
inductive CGroup where
  | vpnExclusions
  | vpnOnly
  | defaultCG
deriving DecidableEq

/-- The two policy routing tables: `IpTablesFirewall::kRtableName` (bypass)
and `IpTablesFirewall::kVpnOnlyRtableName` (vpn-only). -/
inductive RTable where
  | bypass
  | vpnOnly
deriving DecidableEq

/-- One `/proc/<pid>` directory: the pid, the target of the `exe` symlink
(empty when unreadable), and the `PPid:` field of `status`. -/
structure ProcEntry where
  pid : Nat
  exe : String
  ppid : Nat
deriving DecidableEq

/-- A snapshot of `/proc`: the list of process directories. -/
structure ProcSnap where
  entries : List ProcEntry
deriving DecidableEq

/-- `ProcFs::pathForPid`: resolve `/proc/<pid>/exe`; empty string on failure. -/
def pathForPid (snap : ProcSnap) (p : Nat) : String :=
  match snap.entries.find? (fun e => e.pid = p) with
  | some e => e.exe
  | none => emptyStr

/-- `ProcFs::isChildOf`: read `PPid:` from `/proc/<pid>/status` and compare. -/
def isChildOf (snap : ProcSnap) (parentPid p : Nat) : Bool :=
  match snap.entries.find? (fun e => e.pid = p) with
  | some e => e.ppid = parentPid
  | none => false

/-- The pids enumerated by `ProcFs::filterPids` (the `/proc` directory list). -/
def allPids (snap : ProcSnap) : List Nat :=
  snap.entries.map ProcEntry.pid

/-- `ProcFs::pidsForPath`: pids whose resolved executable equals `path`. -/
def pidsForPath (snap : ProcSnap) (path : String) : List Nat :=
  (allPids snap).filter (fun p => pathForPid snap p = path)

/-- `ProcFs::childPidsOf`: pids whose parent pid equals `parentPid`. -/
def childPidsOf (snap : ProcSnap) (parentPid : Nat) : List Nat :=
  (allPids snap).filter (fun p => isChildOf snap parentPid p)

/-- A single cgroup write (`ProcTracker::writePidToCGroup`): the pid and the
cgroup whose task file receives it. -/
abbrev CgWrite := Nat × CGroup

/-- Apply a sequence of cgroup writes to the pid→cgroup assignment, in
order; a later write to the same pid overrides an earlier one. -/
def applyWrites (ws : List CgWrite) (f : Nat → CGroup) : Nat → CGroup :=
  ws.foldl (fun g w => fun q => if q = w.1 then w.2 else g q) f

/-- The write sequence performed by `ProcTracker::addPidToCgroup` (and,
with `CGroup.defaultCG` as target, by `ProcTracker::removePidFromCgroup`):
write the pid itself, then recurse through `ProcFs::childPidsOf`.  The C++
recursion has no depth bound; `fuel` makes the model total, and
`addPidOk` below records whether the fuel sufficed. -/
def addPidWrites : Nat → ProcSnap → Nat → CGroup → List CgWrite
  | 0, _, _, _ => []
  | fuel + 1, snap, p, g =>
      (p, g) :: (childPidsOf snap p).flatMap (fun c => addPidWrites fuel snap c g)

/-- Whether `fuel` recursion depth suffices for the descendant recursion of
`ProcTracker::addPidToCgroup` / `removePidFromCgroup` starting at `p`. -/
def addPidOk : Nat → ProcSnap → Nat → Bool
  | 0, _, _ => false
  | fuel + 1, snap, p => (childPidsOf snap p).all (fun c => addPidOk fuel snap c)

/-- The C++ recursion (which has no depth bound) terminates from `p` iff
some finite recursion depth suffices. -/
def addPidTerminates (snap : ProcSnap) (p : Nat) : Prop :=
  ∃ fuel, addPidOk fuel snap p = true

/-- The recursion depth allowance used when modelling a whole operation:
enough for any acyclic snapshot (a parent chain cannot repeat a pid). -/
def defaultFuel (snap : ProcSnap) : Nat :=
  snap.entries.length + 1

/-- `QSet<pid_t>::insert`: add `p` if not already present. -/
def pidInsert (s : List Nat) (p : Nat) : List Nat :=
  if p ∈ s then s else s ++ [p]

/-- `QVector<QString>::contains`. -/
def memStr : List String → String → Bool
  | [], _ => false
  | x :: xs, a => if x = a then true else memStr xs a

/-- One of the two `AppMap`s (`QMap<QString, QSet<pid_t>>`): executable
path → set of tracked pids, as an association list. -/
structure AppMap where
  entries : List (String × List Nat)
deriving DecidableEq

/-- `QMap::isEmpty` / the empty map. -/
def AppMap.empty : AppMap := ⟨[]⟩

/-- Lookup of a path's pid set (first matching entry). -/
def lookupEntries : List (String × List Nat) → String → Option (List Nat)
  | [], _ => none
  | e :: es, a => if e.1 = a then some e.2 else lookupEntries es a

/-- `QMap::value` as an `Option`. -/
def amLookup (m : AppMap) (a : String) : Option (List Nat) :=
  lookupEntries m.entries a

/-- `QMap::contains`. -/
def amContains (m : AppMap) (a : String) : Bool :=
  (amLookup m a).isSome

/-- `QMap::insert`: replace the value of an existing key, else append. -/
def amSet (m : AppMap) (a : String) (v : List Nat) : AppMap :=
  if amContains m a then
    ⟨m.entries.map (fun e => if e.1 = a then (a, v) else e)⟩
  else
    ⟨m.entries ++ [(a, v)]⟩

/-- `appMap[app].insert(pid)`: insert a pid into the set at key `a` (no-op
when the key is absent; the C++ call sites only use it on present keys). -/
def amInsertPid (m : AppMap) (a : String) (p : Nat) : AppMap :=
  ⟨m.entries.map (fun e => if e.1 = a then (e.1, pidInsert e.2 p) else e)⟩

/-- `set.remove(pid)` applied to every path set (`removeTerminatedApp`). -/
def amRemovePid (m : AppMap) (p : Nat) : AppMap :=
  ⟨m.entries.map (fun e => (e.1, e.2.filter (fun q => q ≠ p)))⟩

/-- Bool membership of a pid in the set at key `a`. -/
def amMem (m : AppMap) (a : String) (p : Nat) : Bool :=
  match amLookup m a with
  | some ps => p ∈ ps
  | none => false

/-- `OriginalNetworkScan`: the physical interface name, its IPv4 address
and the default gateway, as supplied in `FirewallParams::splitTunnelNetScan`. -/
structure NetScan where
  interfaceName : String
  ipAddress : String
  gatewayIp : String
deriving DecidableEq

/-- The default-constructed scan, `_previousNetScan = {}`. -/
def NetScan.cleared : NetScan :=
  ⟨emptyStr, emptyStr, emptyStr⟩

/-- Modelled from the spec: `OriginalNetworkScan::isValid` is declared in
`originalnetworkscan.h`, which is not part of the sources here; the spec
states a scan is valid iff all three fields are non-empty. -/
def NetScan.isValid (s : NetScan) : Bool :=
  decide (s.interfaceName ≠ emptyStr ∧ s.ipAddress ≠ emptyStr ∧ s.gatewayIp ≠ emptyStr)

/-- The slice of `FirewallParams` consumed by `ProcTracker`. -/
structure FirewallParams where
  splitTunnelNetScan : NetScan
  excludeApps : List String
  vpnOnlyApps : List String
deriving DecidableEq

/-- Outcomes of the external calls made by `initiateConnection`: whether
`::socket`, `::bind` and the subscription `::send` succeed, the descriptor a
successful `::socket` returns, and whether the `sysctl -n` read of
`rp_filter` succeeds. -/
structure ConnEnv where
  socketOk : Bool
  bindOk : Bool
  subscribeOk : Bool
  fd : Int
  rpReadOk : Bool
deriving DecidableEq

/-- The value of a decimal digit character. -/
def digitVal (c : Char) : Option Nat :=
  if c = '0' then some 0
  else if c = '1' then some 1
  else if c = '2' then some 2
  else if c = '3' then some 3
  else if c = '4' then some 4
  else if c = '5' then some 5
  else if c = '6' then some 6
  else if c = '7' then some 7
  else if c = '8' then some 8
  else if c = '9' then some 9
  else none

/-- Accumulate decimal digits; `none` once a non-digit is seen or when no
digit was read. -/
def natOfDigits : List Char → Option Nat → Option Nat
  | [], acc => acc
  | c :: cs, acc =>
      match digitVal c, acc with
      | some d, some n => natOfDigits cs (some (n * 10 + d))
      | some d, none => natOfDigits cs (some d)
      | none, _ => none

/-- `QString::toInt`: parse a (signed) decimal integer, returning 0 when
the string is not a number.  (Values read from `sysctl -n` are modelled as
the trimmed output.) -/
def toIntQ (s : String) : Int :=
  match s.data with
  | '-' :: cs =>
      match natOfDigits cs none with
      | some n => -(n : Int)
      | none => 0
  | '+' :: cs =>
      match natOfDigits cs none with
      | some n => (n : Int)
      | none => 0
  | cs =>
      match natOfDigits cs none with
      | some n => (n : Int)
      | none => 0

/-- The observable kernel state managed by the tracker: cgroup memberships,
the two policy-routing tables' default routes, the source-IP rules
(`ip rule`, a list because duplicates can accumulate), the masquerade
anchor content, the two anchor enable bits, and the
`net.ipv4.conf.all.rp_filter` sysctl value. -/
@[ext]
structure KernelState where
  cgroupOf : Nat → CGroup
  bypassRoute : Option (String × String)
  vpnOnlyRoute : Option (String × String)
  ipRules : List (String × RTable)
  masqRules : List String
  tagAnchorEnabled : Bool
  masqAnchorEnabled : Bool
  rpSysctl : String

/-- Remove the first rule equal to `x` (`ip rule del` removes one match;
deleting an absent rule fails and changes nothing). -/
def eraseRule : List (String × RTable) → (String × RTable) → List (String × RTable)
  | [], _ => []
  | r :: rs, x => if r = x then rs else r :: eraseRule rs x

/-- `ProcTracker::addRoutingPolicyForSourceIp`: empty address is a no-op,
otherwise `ip rule add from <ip> lookup <table> pri 101`. -/
def addRoutingPolicyForSourceIp (ip : String) (t : RTable) (k : KernelState) : KernelState :=
  if ip = emptyStr then k else { k with ipRules := (ip, t) :: k.ipRules }

/-- `ProcTracker::removeRoutingPolicyForSourceIp`: empty address is a no-op,
otherwise `ip rule del from <ip> lookup <table> pri 101`. -/
def removeRoutingPolicyForSourceIp (ip : String) (t : RTable) (k : KernelState) : KernelState :=
  if ip = emptyStr then k else { k with ipRules := eraseRule k.ipRules (ip, t) }

/-- The interface masquerade rule string installed into the `100.transIp`
NAT anchor: `-o <iface> -j MASQUERADE`. -/
def masqRuleFor (interfaceName : String) : String :=
  "-o " ++ interfaceName ++ " -j MASQUERADE"

/-- The `tun+` masquerade rule string. -/
def masqRuleTun : String :=
  "-o tun+ -j MASQUERADE"

/-- `ProcTracker::updateMasquerade`: empty interface empties the anchor,
otherwise the anchor is replaced with the interface rule and the `tun+` rule. -/
def updateMasquerade (interfaceName : String) (k : KernelState) : KernelState :=
  if interfaceName = emptyStr then
    { k with masqRules := [] }
  else
    { k with masqRules := [masqRuleFor interfaceName, masqRuleTun] }

/-- `ProcTracker::updateRoutes`: `ip route replace` of the default route in
each table, each only when its inputs are non-empty; the route-cache flush
has no modelled effect. -/
def updateRoutes (gatewayIp interfaceName tunnelDeviceName tunnelDeviceRemoteAddress : String)
    (k : KernelState) : KernelState :=
  let k1 :=
    if gatewayIp = emptyStr ∨ interfaceName = emptyStr then k
    else { k with bypassRoute := some (gatewayIp, interfaceName) }
  if tunnelDeviceRemoteAddress = emptyStr ∨ tunnelDeviceName = emptyStr then k1
  else { k1 with vpnOnlyRoute := some (tunnelDeviceRemoteAddress, tunnelDeviceName) }

/-- `ProcTracker::setupFirewall`: enable the `100.tagPkts` and `100.transIp`
anchors. -/
def setupFirewall (k : KernelState) : KernelState :=
  { k with tagAnchorEnabled := true, masqAnchorEnabled := true }

/-- `ProcTracker::teardownFirewall`: disable both anchors. -/
def teardownFirewall (k : KernelState) : KernelState :=
  { k with tagAnchorEnabled := false, masqAnchorEnabled := false }

/-- The full state of the `ProcTracker` object plus the kernel state it
manages. -/
structure Sys where
  sockFd : Int
  readNotifier : Bool
  exclusionsMap : AppMap
  vpnOnlyMap : AppMap
  previousNetScan : NetScan
  previousTunnelDeviceLocalAddress : String
  previousRPFilter : String
  kernel : KernelState

/-- `ProcTracker::updateNetwork`: reinstall the masquerade anchor when the
physical interface changed; remove-then-add the bypass source-IP rule when
the physical address changed; remove-then-add the vpn-only source-IP rule
when the tunnel local address changed; always replace the routes; finally
store the new scan and tunnel local address as the previous values. -/
def updateNetwork (params : FirewallParams)
    (tunnelDeviceName tunnelDeviceLocalAddress tunnelDeviceRemoteAddress : String)
    (s : Sys) : Sys :=
  let scan := params.splitTunnelNetScan
  let k1 :=
    if s.previousNetScan.interfaceName ≠ scan.interfaceName then
      updateMasquerade scan.interfaceName s.kernel
    else s.kernel
  let k2 :=
    if s.previousNetScan.ipAddress ≠ scan.ipAddress then
      addRoutingPolicyForSourceIp scan.ipAddress RTable.bypass
        (removeRoutingPolicyForSourceIp s.previousNetScan.ipAddress RTable.bypass k1)
    else k1
  let k3 :=
    if s.previousTunnelDeviceLocalAddress ≠ tunnelDeviceLocalAddress then
      addRoutingPolicyForSourceIp tunnelDeviceLocalAddress RTable.vpnOnly
        (removeRoutingPolicyForSourceIp s.previousTunnelDeviceLocalAddress RTable.vpnOnly k2)
    else k2
  let k4 := updateRoutes scan.gatewayIp scan.interfaceName tunnelDeviceName
    tunnelDeviceRemoteAddress k3
  { s with kernel := k4, previousNetScan := scan,
           previousTunnelDeviceLocalAddress := tunnelDeviceLocalAddress }

/-- The cgroup writes performed by `ProcTracker::removeApps`: for each
tracked app not in `keepApps`, every pid of its set (with descendants) is
written to the parent cgroup. -/
def removeAppWrites (fuel : Nat) (snap : ProcSnap) (m : AppMap) (keepApps : List String) :
    List CgWrite :=
  m.entries.flatMap (fun e =>
    if memStr keepApps e.1 then []
    else e.2.flatMap (fun p => addPidWrites fuel snap p CGroup.defaultCG))

/-- The map after `ProcTracker::removeApps`: every app not in `keepApps` is
dropped. -/
def removeAppsMap (m : AppMap) (keepApps : List String) : AppMap :=
  ⟨m.entries.filter (fun e => memStr keepApps e.1)⟩

/-- One iteration of the loop in `ProcTracker::addApps`: insert a fresh
(empty) entry for `app`, then for each pid of the `/proc` scan add it (and
its descendants) to the target cgroup and insert it into the entry. -/
def addAppsStep (fuel : Nat) (snap : ProcSnap) (g : CGroup)
    (st : AppMap × List CgWrite) (app : String) : AppMap × List CgWrite :=
  (pidsForPath snap app).foldl
    (fun st2 p => (amInsertPid st2.1 app p, st2.2 ++ addPidWrites fuel snap p g))
    (amSet st.1 app [], st.2)

/-- `ProcTracker::addApps`: the resulting map together with the cgroup
writes it performs, in order. -/
def addAppsF (fuel : Nat) (snap : ProcSnap) (apps : List String) (m : AppMap)
    (g : CGroup) : AppMap × List CgWrite :=
  apps.foldl (addAppsStep fuel snap g) (m, [])

/-- `ProcTracker::updateApps`: if the previous network scan is invalid the
excluded list is treated as empty; then remove/add excluded apps against
the exclusions map (target: exclusions cgroup) and remove/add vpn-only
apps against the vpn-only map (target: vpn-only cgroup).  The cgroup
writes happen in exactly this order. -/
def updateApps (snap : ProcSnap) (excludedApps vpnOnlyApps : List String) (s : Sys) : Sys :=
  let fuel := defaultFuel snap
  let excl := if s.previousNetScan.isValid then excludedApps else []
  let w1 := removeAppWrites fuel snap s.exclusionsMap excl
  let em1 := removeAppsMap s.exclusionsMap excl
  let ea := addAppsF fuel snap excl em1 CGroup.vpnExclusions
  let w3 := removeAppWrites fuel snap s.vpnOnlyMap vpnOnlyApps
  let vm1 := removeAppsMap s.vpnOnlyMap vpnOnlyApps
  let va := addAppsF fuel snap vpnOnlyApps vm1 CGroup.vpnOnly
  { s with exclusionsMap := ea.1, vpnOnlyMap := va.1,
           kernel := { s.kernel with
             cgroupOf := applyWrites (w1 ++ ea.2 ++ w3 ++ va.2) s.kernel.cgroupOf } }

/-- `ProcTracker::updateSplitTunnel`: network state first, then app
reconciliation. -/
def updateSplitTunnel (params : FirewallParams)
    (tunnelDeviceName tunnelDeviceLocalAddress tunnelDeviceRemoteAddress : String)
    (excludedApps vpnOnlyApps : List String) (snap : ProcSnap) (s : Sys) : Sys :=
  updateApps snap excludedApps vpnOnlyApps
    (updateNetwork params tunnelDeviceName tunnelDeviceLocalAddress
      tunnelDeviceRemoteAddress s)

/-- `ProcTracker::setupReversePathFiltering`: read
`net.ipv4.conf.all.rp_filter`; on success, if the value is not already 2
save it and set the sysctl to 2, else do nothing; on failure clear the
saved value. -/
def setupReversePathFiltering (rpReadOk : Bool) (s : Sys) : Sys :=
  if rpReadOk then
    if toIntQ s.kernel.rpSysctl ≠ 2 then
      { s with previousRPFilter := s.kernel.rpSysctl,
               kernel := { s.kernel with rpSysctl := "2" } }
    else s
  else
    { s with previousRPFilter := emptyStr }

/-- `ProcTracker::teardownReversePathFiltering`: restore the sysctl to the
saved value when one is stored (the field itself is not cleared). -/
def teardownReversePathFiltering (s : Sys) : Sys :=
  if s.previousRPFilter ≠ emptyStr then
    { s with kernel := { s.kernel with rpSysctl := s.previousRPFilter } }
  else s

/-- `ProcTracker::shutdownConnection`: disable/delete the read notifier,
unsubscribe and close the socket, tear down the firewall anchors, remove
all tracked apps from their cgroups and clear both maps
(`removeAllApps`), delete both source-IP rules, restore `rp_filter`, then
clear the previous network scan and the socket descriptor.  (The previous
tunnel local address and saved `rp_filter` fields are left as they are.) -/
def shutdownConnection (snap : ProcSnap) (s : Sys) : Sys :=
  let fuel := defaultFuel snap
  let wE := removeAppWrites fuel snap s.exclusionsMap []
  let wV := removeAppWrites fuel snap s.vpnOnlyMap []
  let k1 := teardownFirewall s.kernel
  let k2 := { k1 with cgroupOf := applyWrites (wE ++ wV) k1.cgroupOf }
  let k3 := removeRoutingPolicyForSourceIp s.previousNetScan.ipAddress RTable.bypass k2
  let k4 := removeRoutingPolicyForSourceIp s.previousTunnelDeviceLocalAddress
    RTable.vpnOnly k3
  let s1 := { s with readNotifier := false, exclusionsMap := AppMap.empty,
                     vpnOnlyMap := AppMap.empty, kernel := k4 }
  let s2 := teardownReversePathFiltering s1
  { s2 with previousNetScan := NetScan.cleared, sockFd := -1 }

/-- `ProcTracker::initiateConnection`: an existing session is shut down
first; then socket / bind / subscribe, abandoning on any failure; on
success store the descriptor, enable the firewall anchors, run
`updateSplitTunnel` with the params' app lists, configure reverse-path
filtering and register the read notifier. -/
def initiateConnection (params : FirewallParams)
    (tunnelDeviceName tunnelDeviceLocalAddress tunnelDeviceRemoteAddress : String)
    (env : ConnEnv) (snap : ProcSnap) (s : Sys) : Sys :=
  let s0 := if s.sockFd ≠ -1 then shutdownConnection snap s else s
  if ¬ env.socketOk then s0
  else if ¬ env.bindOk then s0
  else if ¬ env.subscribeOk then s0
  else
    let s1 := { s0 with sockFd := env.fd }
    let s2 := { s1 with kernel := setupFirewall s1.kernel }
    let s3 := updateSplitTunnel params tunnelDeviceName tunnelDeviceLocalAddress
      tunnelDeviceRemoteAddress params.excludeApps params.vpnOnlyApps snap s2
    let s4 := setupReversePathFiltering env.rpReadOk s3
    { s4 with readNotifier := true }

/-- `ProcTracker::addLaunchedApp`: resolve the pid's executable path; empty
path is ignored; a path tracked in the exclusions map is added (set insert
plus cgroup write) only while the network scan is valid; otherwise a path
tracked in the vpn-only map is added unconditionally. -/
def addLaunchedApp (pid : Nat) (snap : ProcSnap) (s : Sys) : Sys :=
  let fuel := defaultFuel snap
  let appName := pathForPid snap pid
  if appName = emptyStr then s
  else if amContains s.exclusionsMap appName then
    if s.previousNetScan.isValid then
      { s with exclusionsMap := amInsertPid s.exclusionsMap appName pid,
               kernel := { s.kernel with
                 cgroupOf := applyWrites (addPidWrites fuel snap pid CGroup.vpnExclusions)
                   s.kernel.cgroupOf } }
    else s
  else if amContains s.vpnOnlyMap appName then
    { s with vpnOnlyMap := amInsertPid s.vpnOnlyMap appName pid,
             kernel := { s.kernel with
               cgroupOf := applyWrites (addPidWrites fuel snap pid CGroup.vpnOnly)
                 s.kernel.cgroupOf } }
  else s

/-- `ProcTracker::removeTerminatedApp`: remove the pid from every path set
of both maps; cgroups are not touched. -/
def removeTerminatedApp (pid : Nat) (s : Sys) : Sys :=
  { s with exclusionsMap := amRemovePid s.exclusionsMap pid,
           vpnOnlyMap := amRemovePid s.vpnOnlyMap pid }

/-- A public operation of the reconciler: the daemon-driven transitions,
the two netlink-event handlers, and an environment step representing an
out-of-band change of the `rp_filter` sysctl (which the spec explicitly
contemplates). -/
inductive Op where
  | initiate (params : FirewallParams)
      (tunnelDeviceName tunnelDeviceLocalAddress tunnelDeviceRemoteAddress : String)
      (env : ConnEnv) (snap : ProcSnap)
  | updateST (params : FirewallParams)
      (tunnelDeviceName tunnelDeviceLocalAddress tunnelDeviceRemoteAddress : String)
      (excludedApps vpnOnlyApps : List String) (snap : ProcSnap)
  | shutdown (snap : ProcSnap)
  | addLaunched (pid : Nat) (snap : ProcSnap)
  | removeTerminated (pid : Nat)
  | envRpFilter (v : String)
deriving DecidableEq

/-- Apply one public operation. -/
def step (s : Sys) (op : Op) : Sys :=
  match op with
  | Op.initiate params tn tl tr env snap =>
      initiateConnection params tn tl tr env snap s
  | Op.updateST params tn tl tr excl vpn snap =>
      updateSplitTunnel params tn tl tr excl vpn snap s
  | Op.shutdown snap => shutdownConnection snap s
  | Op.addLaunched pid snap => addLaunchedApp pid snap s
  | Op.removeTerminated pid => removeTerminatedApp pid s
  | Op.envRpFilter v => { s with kernel := { s.kernel with rpSysctl := v } }

/-- The tracker's initial state: no socket, empty maps, cleared previous
fields; every pid starts in the default cgroup, no routes, rules or anchor
content; `rp0` is the ambient `rp_filter` sysctl value. -/
def initSys (rp0 : String) : Sys :=
  { sockFd := -1
    readNotifier := false
    exclusionsMap := AppMap.empty
    vpnOnlyMap := AppMap.empty
    previousNetScan := NetScan.cleared
    previousTunnelDeviceLocalAddress := emptyStr
    previousRPFilter := emptyStr
    kernel :=
      { cgroupOf := fun _ => CGroup.defaultCG
        bypassRoute := none
        vpnOnlyRoute := none
        ipRules := []
        masqRules := []
        tagAnchorEnabled := false
        masqAnchorEnabled := false
        rpSysctl := rp0 } }

/-- Run a trace of public operations from the initial state. -/
def run (rp0 : String) (ops : List Op) : Sys :=
  ops.foldl step (initSys rp0)

/-! ### Lemmas about cgroup write sequences -/

/-- The last write to `q` in a write list, if any. -/
def lastW : List CgWrite → Nat → Option CGroup
  | [], _ => none
  | w :: ws, q =>
      match lastW ws q with
      | some g => some g
      | none => if w.1 = q then some w.2 else none

theorem applyWrites_nil (f : Nat → CGroup) : applyWrites [] f = f := rfl

theorem applyWrites_cons (w : CgWrite) (ws : List CgWrite) (f : Nat → CGroup) :
    applyWrites (w :: ws) f = applyWrites ws (fun q => if q = w.1 then w.2 else f q) := rfl

theorem applyWrites_eq_lastW (ws : List CgWrite) (f : Nat → CGroup) (q : Nat) :
    applyWrites ws f q = (lastW ws q).getD (f q) := by
  induction ws generalizing f with
  | nil => rfl
  | cons w ws ih =>
      rw [applyWrites_cons, ih]
      show _ = (match lastW ws q with
        | some g => some g
        | none => if w.1 = q then some w.2 else none).getD (f q)
      cases h : lastW ws q with
      | some g => simp
      | none =>
          simp only [Option.getD_none]
          by_cases hq : q = w.1
          · subst hq
            simp
          · have hq2 : ¬ (w.1 = q) := fun hh => hq hh.symm
            simp [hq, hq2]

theorem applyWrites_append (l1 l2 : List CgWrite) (f : Nat → CGroup) :
    applyWrites (l1 ++ l2) f = applyWrites l2 (applyWrites l1 f) := by
  simp [applyWrites, List.foldl_append]

theorem lastW_append (l1 l2 : List CgWrite) (q : Nat) :
    lastW (l1 ++ l2) q =
      (match lastW l2 q with
       | some g => some g
       | none => lastW l1 q) := by
  induction l1 with
  | nil =>
      cases h : lastW l2 q <;> simp [lastW, h]
  | cons w l1 ih =>
      show (match lastW (l1 ++ l2) q with
        | some g => some g
        | none => if w.1 = q then some w.2 else none) = _
      rw [ih]
      cases h2 : lastW l2 q with
      | some g => simp
      | none => rfl

/-- Re-applying a suffix of an already-applied write sequence changes
nothing: the suffix's writes already override everything before them. -/
theorem applyWrites_absorb (l1 l2 : List CgWrite) (f : Nat → CGroup) :
    applyWrites l2 (applyWrites (l1 ++ l2) f) = applyWrites (l1 ++ l2) f := by
  funext q
  simp only [applyWrites_eq_lastW]
  cases h : lastW l2 q with
  | some g =>
      have h2 : lastW (l1 ++ l2) q = some g := by rw [lastW_append, h]
      rw [h2]
      rfl
  | none => rfl

/-! ### Lemmas about the app maps -/

theorem memStr_iff (l : List String) (a : String) : memStr l a = true ↔ a ∈ l := by
  induction l with
  | nil => simp [memStr]
  | cons x xs ih =>
      simp only [memStr]
      by_cases hx : x = a
      · subst hx
        simp
      · rw [if_neg hx, ih, List.mem_cons]
        constructor
        · exact Or.inr
        · rintro (rfl | h)
          · exact absurd rfl hx
          · exact h

theorem lookupEntries_append (es fs : List (String × List Nat)) (a : String) :
    lookupEntries (es ++ fs) a =
      (match lookupEntries es a with
       | some v => some v
       | none => lookupEntries fs a) := by
  induction es with
  | nil => rfl
  | cons e es ih =>
      simp only [List.cons_append, lookupEntries]
      by_cases he : e.1 = a
      · simp [he]
      · simp [he, ih]

theorem lookupEntries_mapSet (es : List (String × List Nat)) (a : String) (v : List Nat)
    (b : String) :
    lookupEntries (es.map (fun e => if e.1 = a then (a, v) else e)) b =
      if b = a then (lookupEntries es a).map (fun _ => v) else lookupEntries es b := by
  induction es with
  | nil => by_cases h : b = a <;> simp [lookupEntries, h]
  | cons e es ih =>
      simp only [List.map_cons]
      by_cases he : e.1 = a
      · rw [if_pos he]
        by_cases hb : b = a
        · subst hb
          simp [lookupEntries, he]
        · have hab : ¬ (a = b) := fun hh => hb hh.symm
          have heb : ¬ (e.1 = b) := fun hh => hab (he ▸ hh)
          simp [lookupEntries, hab, heb, ih, hb]
      · rw [if_neg he]
        by_cases hb : b = a
        · subst hb
          have heb : ¬ (e.1 = b) := he
          simp [lookupEntries, heb, ih]
        · simp only [lookupEntries, ih, if_neg hb]

theorem lookupEntries_mapVal (es : List (String × List Nat)) (a : String)
    (t : List Nat → List Nat) (b : String) :
    lookupEntries (es.map (fun e => if e.1 = a then (e.1, t e.2) else e)) b =
      if b = a then (lookupEntries es a).map t else lookupEntries es b := by
  induction es with
  | nil => by_cases h : b = a <;> simp [lookupEntries, h]
  | cons e es ih =>
      simp only [List.map_cons]
      by_cases he : e.1 = a
      · rw [if_pos he]
        by_cases hb : b = a
        · subst hb
          simp [lookupEntries, he]
        · have heb : ¬ (e.1 = b) := fun hh => hb (hh.symm.trans he)
          simp [lookupEntries, heb, ih, hb]
      · rw [if_neg he]
        by_cases hb : b = a
        · subst hb
          simp [lookupEntries, he, ih]
        · simp only [lookupEntries, ih, if_neg hb]

theorem lookupEntries_mapAll (es : List (String × List Nat))
    (t : List Nat → List Nat) (b : String) :
    lookupEntries (es.map (fun e => (e.1, t e.2))) b = (lookupEntries es b).map t := by
  induction es with
  | nil => rfl
  | cons e es ih =>
      by_cases he : e.1 = b <;> simp [lookupEntries, he, ih]

theorem lookupEntries_filterKeep (es : List (String × List Nat)) (keep : List String)
    (b : String) :
    lookupEntries (es.filter (fun e => memStr keep e.1)) b =
      if memStr keep b then lookupEntries es b else none := by
  induction es with
  | nil => by_cases h : memStr keep b <;> simp [lookupEntries, h]
  | cons e es ih =>
      by_cases ke : memStr keep e.1
      · rw [show List.filter (fun e => memStr keep e.1) (e :: es) =
            e :: List.filter (fun e => memStr keep e.1) es from by simp [List.filter_cons, ke]]
        by_cases heb : e.1 = b
        · subst heb
          simp [lookupEntries, ke]
        · simp [lookupEntries, heb, ih]
      · rw [show List.filter (fun e => memStr keep e.1) (e :: es) =
            List.filter (fun e => memStr keep e.1) es from by simp [List.filter_cons, ke]]
        by_cases heb : e.1 = b
        · subst heb
          simp only [ih]
          have hf : memStr keep e.1 = false := by simpa using ke
          simp [hf]
        · simp [lookupEntries, heb, ih]

theorem amLookup_amSet (m : AppMap) (a : String) (v : List Nat) (b : String) :
    amLookup (amSet m a v) b = if b = a then some v else amLookup m b := by
  unfold amSet amContains
  by_cases hc : (amLookup m a).isSome = true
  · rw [if_pos hc]
    show lookupEntries (m.entries.map _) b = _
    rw [lookupEntries_mapSet]
    by_cases hb : b = a
    · subst hb
      obtain ⟨v0, hv0⟩ := Option.isSome_iff_exists.mp hc
      rw [show lookupEntries m.entries b = some v0 from hv0]
      simp
    · simp [hb]
      rfl
  · rw [if_neg hc]
    show lookupEntries (m.entries ++ [(a, v)]) b = _
    rw [lookupEntries_append]
    have hnone : lookupEntries m.entries a = none := by
      cases hl : lookupEntries m.entries a with
      | some v0 => exact absurd (by simp [amLookup, hl]) hc
      | none => rfl
    by_cases hb : b = a
    · subst hb
      rw [hnone]
      simp [lookupEntries]
    · cases hl : lookupEntries m.entries b with
      | some v0 => simp [amLookup, hl, hb]
      | none =>
          have hab : ¬ (a = b) := fun hh => hb hh.symm
          simp [amLookup, hl, lookupEntries, hab, hb]

theorem amLookup_amInsertPid (m : AppMap) (a : String) (p : Nat) (b : String) :
    amLookup (amInsertPid m a p) b =
      if b = a then (amLookup m a).map (fun ps => pidInsert ps p) else amLookup m b :=
  lookupEntries_mapVal m.entries a (fun ps => pidInsert ps p) b

theorem amLookup_amRemovePid (m : AppMap) (p : Nat) (b : String) :
    amLookup (amRemovePid m p) b =
      (amLookup m b).map (fun ps => ps.filter (fun q => q ≠ p)) :=
  lookupEntries_mapAll m.entries (fun ps => ps.filter (fun q => q ≠ p)) b

theorem amLookup_removeAppsMap (m : AppMap) (keep : List String) (b : String) :
    amLookup (removeAppsMap m keep) b =
      if memStr keep b then amLookup m b else none :=
  lookupEntries_filterKeep m.entries keep b

/-! ### Characterization of `addApps` -/

/-- The pid set `addApps` ends up storing for a path: the `/proc` scan
result inserted into a fresh empty set. -/
def scanFold (snap : ProcSnap) (a : String) : List Nat :=
  (pidsForPath snap a).foldl pidInsert []

/-- The cgroup writes `addApps` performs for a given app list. -/
def addAppsWrites (fuel : Nat) (snap : ProcSnap) (apps : List String) (g : CGroup) :
    List CgWrite :=
  apps.flatMap (fun app =>
    (pidsForPath snap app).flatMap (fun p => addPidWrites fuel snap p g))

theorem foldl_insert_pair (fuel : Nat) (snap : ProcSnap) (g : CGroup) (app : String)
    (ps : List Nat) (m : AppMap) (w : List CgWrite) :
    ps.foldl (fun st2 p => (amInsertPid st2.1 app p, st2.2 ++ addPidWrites fuel snap p g))
      (m, w) =
    (ps.foldl (fun mm p => amInsertPid mm app p) m,
     w ++ ps.flatMap (fun p => addPidWrites fuel snap p g)) := by
  induction ps generalizing m w with
  | nil => simp
  | cons p ps ih =>
      simp only [List.foldl_cons, List.flatMap_cons, ih, List.append_assoc]

theorem addAppsStep_eq (fuel : Nat) (snap : ProcSnap) (g : CGroup) (m : AppMap)
    (w : List CgWrite) (app : String) :
    addAppsStep fuel snap g (m, w) app =
      ((pidsForPath snap app).foldl (fun mm p => amInsertPid mm app p) (amSet m app []),
       w ++ (pidsForPath snap app).flatMap (fun p => addPidWrites fuel snap p g)) := by
  unfold addAppsStep
  rw [foldl_insert_pair]

theorem amLookup_foldl_insert (ps : List Nat) (m : AppMap) (app b : String) :
    amLookup (ps.foldl (fun mm p => amInsertPid mm app p) m) b =
      if b = app then (amLookup m app).map (fun acc => ps.foldl pidInsert acc)
      else amLookup m b := by
  induction ps generalizing m with
  | nil =>
      by_cases hb : b = app
      · subst hb
        cases hml : amLookup m b <;> simp [hml]
      · simp [hb]
  | cons p ps ih =>
      simp only [List.foldl_cons, ih, amLookup_amInsertPid]
      by_cases hb : b = app
      · subst hb
        cases hml : amLookup m b <;> simp [hml]
      · simp [hb]

theorem amLookup_addAppsF_go (fuel : Nat) (snap : ProcSnap) (g : CGroup)
    (apps : List String) (m : AppMap) (w : List CgWrite) (b : String) :
    amLookup (apps.foldl (addAppsStep fuel snap g) (m, w)).1 b =
      if memStr apps b then some (scanFold snap b) else amLookup m b := by
  induction apps generalizing m w with
  | nil => simp [memStr]
  | cons x rest ih =>
      simp only [List.foldl_cons, addAppsStep_eq, ih, memStr]
      by_cases hxb : x = b
      · subst hxb
        by_cases hr : memStr rest x
        · simp [hr]
        · simp [hr, amLookup_foldl_insert, amLookup_amSet, scanFold]
      · have hbx : ¬ (b = x) := fun hh => hxb hh.symm
        by_cases hr : memStr rest b
        · simp [hxb, hr]
        · simp [hxb, hr, amLookup_foldl_insert, amLookup_amSet, hbx]

theorem amLookup_addAppsF (fuel : Nat) (snap : ProcSnap) (apps : List String)
    (m : AppMap) (g : CGroup) (b : String) :
    amLookup (addAppsF fuel snap apps m g).1 b =
      if memStr apps b then some (scanFold snap b) else amLookup m b :=
  amLookup_addAppsF_go fuel snap g apps m [] b

theorem addAppsF_writes_go (fuel : Nat) (snap : ProcSnap) (g : CGroup)
    (apps : List String) (m : AppMap) (w : List CgWrite) :
    (apps.foldl (addAppsStep fuel snap g) (m, w)).2 =
      w ++ addAppsWrites fuel snap apps g := by
  induction apps generalizing m w with
  | nil => simp [addAppsWrites]
  | cons x rest ih =>
      simp only [List.foldl_cons, addAppsStep_eq, ih, addAppsWrites, List.flatMap_cons,
        List.append_assoc]

theorem addAppsF_writes (fuel : Nat) (snap : ProcSnap) (apps : List String)
    (m : AppMap) (g : CGroup) :
    (addAppsF fuel snap apps m g).2 = addAppsWrites fuel snap apps g :=
  addAppsF_writes_go fuel snap g apps m []

/-! ### Key containment -/

/-- Every key of the map is in `l`. -/
def keysSub (m : AppMap) (l : List String) : Prop :=
  ∀ e ∈ m.entries, memStr l e.1 = true

theorem keysSub_removeAppsMap (m : AppMap) (keep : List String) :
    keysSub (removeAppsMap m keep) keep := by
  intro e he
  have := List.of_mem_filter he
  simpa using this

theorem keysSub_amSet (m : AppMap) (l : List String) (a : String) (v : List Nat)
    (h : keysSub m l) (ha : memStr l a = true) : keysSub (amSet m a v) l := by
  intro e he
  unfold amSet at he
  by_cases hc : amContains m a
  · rw [if_pos hc] at he
    obtain ⟨e0, he0, hmap⟩ := List.mem_map.mp he
    by_cases h0 : e0.1 = a
    · rw [if_pos h0] at hmap
      rw [← hmap]
      exact ha
    · rw [if_neg h0] at hmap
      rw [← hmap]
      exact h e0 he0
  · rw [if_neg hc] at he
    rcases List.mem_append.mp he with h1 | h2
    · exact h e h1
    · simp at h2
      rw [h2]
      exact ha

theorem keysSub_amInsertPid (m : AppMap) (l : List String) (a : String) (p : Nat)
    (h : keysSub m l) : keysSub (amInsertPid m a p) l := by
  intro e he
  obtain ⟨e0, he0, hmap⟩ := List.mem_map.mp he
  by_cases h0 : e0.1 = a
  · rw [if_pos h0] at hmap
    rw [← hmap]
    simpa [h0] using h e0 he0
  · rw [if_neg h0] at hmap
    rw [← hmap]
    exact h e0 he0

theorem keysSub_foldl_insert (ps : List Nat) (m : AppMap) (l : List String) (app : String)
    (h : keysSub m l) :
    keysSub (ps.foldl (fun mm p => amInsertPid mm app p) m) l := by
  induction ps generalizing m with
  | nil => exact h
  | cons p ps ih => exact ih _ (keysSub_amInsertPid m l app p h)

theorem keysSub_addAppsF_go (fuel : Nat) (snap : ProcSnap) (g : CGroup)
    (apps : List String) (l : List String) (m : AppMap) (w : List CgWrite)
    (h : keysSub m l) (hsub : ∀ x ∈ apps, memStr l x = true) :
    keysSub (apps.foldl (addAppsStep fuel snap g) (m, w)).1 l := by
  induction apps generalizing m w with
  | nil => exact h
  | cons x rest ih =>
      simp only [List.foldl_cons, addAppsStep_eq]
      exact ih _ _
        (keysSub_foldl_insert _ _ _ _
          (keysSub_amSet m l x [] h (hsub x (List.mem_cons_self x rest))))
        (fun y hy => hsub y (List.mem_cons_of_mem x hy))

theorem keysSub_addAppsF (fuel : Nat) (snap : ProcSnap) (apps : List String)
    (m : AppMap) (g : CGroup) (l : List String)
    (h : keysSub m l) (hsub : ∀ x ∈ apps, memStr l x = true) :
    keysSub (addAppsF fuel snap apps m g).1 l :=
  keysSub_addAppsF_go fuel snap g apps l m [] h hsub

/-! ### `removeApps` is a no-op when every key is kept -/

theorem removeAppsMap_of_keysSub (m : AppMap) (keep : List String)
    (h : keysSub m keep) : removeAppsMap m keep = m := by
  unfold removeAppsMap
  rw [List.filter_eq_self.mpr h]

theorem flatMapNilOf {α β : Type} (es : List α) (f : α → List β)
    (h : ∀ e ∈ es, f e = []) : es.flatMap f = [] := by
  induction es with
  | nil => rfl
  | cons e es ih =>
      rw [List.flatMap_cons, h e (List.mem_cons_self e es),
        ih (fun x hx => h x (List.mem_cons_of_mem e hx))]
      rfl

theorem removeAppWrites_of_keysSub (fuel : Nat) (snap : ProcSnap) (m : AppMap)
    (keep : List String) (h : keysSub m keep) :
    removeAppWrites fuel snap m keep = [] := by
  unfold removeAppWrites
  apply flatMapNilOf
  intro e he
  rw [if_pos (h e he)]

/-! ### Field-preservation lemmas -/

theorem cgroupOf_updateMasquerade (i : String) (k : KernelState) :
    (updateMasquerade i k).cgroupOf = k.cgroupOf := by
  unfold updateMasquerade
  split <;> rfl

theorem cgroupOf_addRP (ip : String) (t : RTable) (k : KernelState) :
    (addRoutingPolicyForSourceIp ip t k).cgroupOf = k.cgroupOf := by
  unfold addRoutingPolicyForSourceIp
  split <;> rfl

theorem cgroupOf_removeRP (ip : String) (t : RTable) (k : KernelState) :
    (removeRoutingPolicyForSourceIp ip t k).cgroupOf = k.cgroupOf := by
  unfold removeRoutingPolicyForSourceIp
  split <;> rfl

theorem cgroupOf_updateRoutes (gw i tn tr : String) (k : KernelState) :
    (updateRoutes gw i tn tr k).cgroupOf = k.cgroupOf := by
  unfold updateRoutes
  dsimp only
  split <;> split <;> rfl

theorem cgroupOf_updateNetwork (params : FirewallParams) (tn tl tr : String) (s : Sys) :
    (updateNetwork params tn tl tr s).kernel.cgroupOf = s.kernel.cgroupOf := by
  unfold updateNetwork
  dsimp only
  rw [cgroupOf_updateRoutes]
  split
  · rw [cgroupOf_addRP, cgroupOf_removeRP]
    split
    · rw [cgroupOf_addRP, cgroupOf_removeRP]
      split <;> [rw [cgroupOf_updateMasquerade]; rfl]
    · split <;> [rw [cgroupOf_updateMasquerade]; rfl]
  · split
    · rw [cgroupOf_addRP, cgroupOf_removeRP]
      split <;> [rw [cgroupOf_updateMasquerade]; rfl]
    · split <;> [rw [cgroupOf_updateMasquerade]; rfl]

theorem ipRules_updateMasquerade (i : String) (k : KernelState) :
    (updateMasquerade i k).ipRules = k.ipRules := by
  unfold updateMasquerade
  split <;> rfl

theorem ipRules_updateRoutes (gw i tn tr : String) (k : KernelState) :
    (updateRoutes gw i tn tr k).ipRules = k.ipRules := by
  unfold updateRoutes
  dsimp only
  split <;> split <;> rfl

theorem masqRules_addRP (ip : String) (t : RTable) (k : KernelState) :
    (addRoutingPolicyForSourceIp ip t k).masqRules = k.masqRules := by
  unfold addRoutingPolicyForSourceIp
  split <;> rfl

theorem masqRules_removeRP (ip : String) (t : RTable) (k : KernelState) :
    (removeRoutingPolicyForSourceIp ip t k).masqRules = k.masqRules := by
  unfold removeRoutingPolicyForSourceIp
  split <;> rfl

theorem masqRules_updateRoutes (gw i tn tr : String) (k : KernelState) :
    (updateRoutes gw i tn tr k).masqRules = k.masqRules := by
  unfold updateRoutes
  dsimp only
  split <;> split <;> rfl

theorem rpSysctl_addRP (ip : String) (t : RTable) (k : KernelState) :
    (addRoutingPolicyForSourceIp ip t k).rpSysctl = k.rpSysctl := by
  unfold addRoutingPolicyForSourceIp
  split <;> rfl

theorem rpSysctl_removeRP (ip : String) (t : RTable) (k : KernelState) :
    (removeRoutingPolicyForSourceIp ip t k).rpSysctl = k.rpSysctl := by
  unfold removeRoutingPolicyForSourceIp
  split <;> rfl

theorem bypassRoute_addRP (ip : String) (t : RTable) (k : KernelState) :
    (addRoutingPolicyForSourceIp ip t k).bypassRoute = k.bypassRoute := by
  unfold addRoutingPolicyForSourceIp
  split <;> rfl

theorem bypassRoute_removeRP (ip : String) (t : RTable) (k : KernelState) :
    (removeRoutingPolicyForSourceIp ip t k).bypassRoute = k.bypassRoute := by
  unfold removeRoutingPolicyForSourceIp
  split <;> rfl

theorem bypassRoute_updateMasquerade (i : String) (k : KernelState) :
    (updateMasquerade i k).bypassRoute = k.bypassRoute := by
  unfold updateMasquerade
  split <;> rfl

theorem vpnOnlyRoute_addRP (ip : String) (t : RTable) (k : KernelState) :
    (addRoutingPolicyForSourceIp ip t k).vpnOnlyRoute = k.vpnOnlyRoute := by
  unfold addRoutingPolicyForSourceIp
  split <;> rfl

theorem vpnOnlyRoute_removeRP (ip : String) (t : RTable) (k : KernelState) :
    (removeRoutingPolicyForSourceIp ip t k).vpnOnlyRoute = k.vpnOnlyRoute := by
  unfold removeRoutingPolicyForSourceIp
  split <;> rfl

theorem vpnOnlyRoute_updateMasquerade (i : String) (k : KernelState) :
    (updateMasquerade i k).vpnOnlyRoute = k.vpnOnlyRoute := by
  unfold updateMasquerade
  split <;> rfl

theorem bypassRoute_updateRoutes (gw i tn tr : String) (k : KernelState) :
    (updateRoutes gw i tn tr k).bypassRoute =
      if gw = emptyStr ∨ i = emptyStr then k.bypassRoute else some (gw, i) := by
  unfold updateRoutes
  dsimp only
  split <;> split <;> simp_all

theorem vpnOnlyRoute_updateRoutes (gw i tn tr : String) (k : KernelState) :
    (updateRoutes gw i tn tr k).vpnOnlyRoute =
      if tr = emptyStr ∨ tn = emptyStr then k.vpnOnlyRoute else some (tr, tn) := by
  unfold updateRoutes
  dsimp only
  split <;> split <;> simp_all

/-! ### Source-IP rule lemmas -/

/-- The source addresses of the rules installed for table `t`. -/
def rulesList (t : RTable) (l : List (String × RTable)) : List String :=
  (l.filter (fun r => r.2 = t)).map Prod.fst

/-- The source addresses of the rules installed for table `t` at rest. -/
def rulesFor (t : RTable) (k : KernelState) : List String :=
  rulesList t k.ipRules

/-- Remove the first occurrence of a string. -/
def eraseStr : List String → String → List String
  | [], _ => []
  | x :: xs, a => if x = a then xs else x :: eraseStr xs a

theorem rulesList_eraseRule_same (l : List (String × RTable)) (ip : String) (t : RTable) :
    rulesList t (eraseRule l (ip, t)) = eraseStr (rulesList t l) ip := by
  induction l with
  | nil => rfl
  | cons r rs ih =>
      unfold eraseRule
      by_cases hr : r = (ip, t)
      · subst hr
        simp [rulesList, eraseStr]
      · rw [if_neg hr]
        by_cases h2 : r.2 = t
        · have h1 : ¬ (r.1 = ip) := by
            intro h1
            exact hr (Prod.ext h1 h2)
          simp [rulesList, List.filter_cons, h2, eraseStr, h1] at ih ⊢
          exact ih
        · simp [rulesList, List.filter_cons, h2] at ih ⊢
          exact ih

theorem rulesList_eraseRule_other (l : List (String × RTable)) (ip : String)
    (t t2 : RTable) (hne : t2 ≠ t) :
    rulesList t (eraseRule l (ip, t2)) = rulesList t l := by
  induction l with
  | nil => rfl
  | cons r rs ih =>
      unfold eraseRule
      by_cases hr : r = (ip, t2)
      · subst hr
        have h2 : ¬ ((ip, t2).2 = t) := by simpa using hne
        simp [rulesList, List.filter_cons, h2]
      · rw [if_neg hr]
        by_cases h2 : r.2 = t
        · simp [rulesList, List.filter_cons, h2] at ih ⊢
          exact ih
        · simp [rulesList, List.filter_cons, h2] at ih ⊢
          exact ih

theorem rulesFor_addRP_same (ip : String) (t : RTable) (k : KernelState) :
    rulesFor t (addRoutingPolicyForSourceIp ip t k) =
      if ip = emptyStr then rulesFor t k else ip :: rulesFor t k := by
  unfold addRoutingPolicyForSourceIp
  by_cases h : ip = emptyStr
  · simp [h]
  · simp [h, rulesFor, rulesList, List.filter_cons]

theorem rulesFor_addRP_other (ip : String) (t t2 : RTable) (k : KernelState)
    (hne : t2 ≠ t) :
    rulesFor t (addRoutingPolicyForSourceIp ip t2 k) = rulesFor t k := by
  unfold addRoutingPolicyForSourceIp
  by_cases h : ip = emptyStr
  · simp [h]
  · have h2 : ¬ ((ip, t2).2 = t) := by simpa using hne
    simp [h, rulesFor, rulesList, List.filter_cons, h2]

theorem rulesFor_removeRP_same (ip : String) (t : RTable) (k : KernelState) :
    rulesFor t (removeRoutingPolicyForSourceIp ip t k) =
      if ip = emptyStr then rulesFor t k else eraseStr (rulesFor t k) ip := by
  unfold removeRoutingPolicyForSourceIp
  by_cases h : ip = emptyStr
  · simp [h]
  · simp only [if_neg h]
    exact rulesList_eraseRule_same k.ipRules ip t

theorem rulesFor_removeRP_other (ip : String) (t t2 : RTable) (k : KernelState)
    (hne : t2 ≠ t) :
    rulesFor t (removeRoutingPolicyForSourceIp ip t2 k) = rulesFor t k := by
  unfold removeRoutingPolicyForSourceIp
  by_cases h : ip = emptyStr
  · simp [h]
  · simp only [if_neg h]
    exact rulesList_eraseRule_other k.ipRules ip t t2 hne

/-! ### Concrete fixtures used for counterexamples and witnesses -/

/-- Sample excluded-app path. -/
def pathA : String := "/usr/bin/foo"

/-- Sample second app path. -/
def pathB : String := "/usr/bin/bar"

/-- Sample vpn-only app path. -/
def pathC : String := "/usr/bin/baz"

/-- A `/proc` snapshot: pid 10 runs `pathA` with child pid 20 running `pathB`. -/
def snapW : ProcSnap := ⟨[⟨10, pathA, 1⟩, ⟨20, pathB, 10⟩]⟩

/-- A valid network scan. -/
def scanW : NetScan := ⟨"eth0", "192.0.2.2", "192.0.2.1"⟩

/-- An invalid network scan (all fields empty). -/
def scanInvalid : NetScan := NetScan.cleared

/-- Firewall params with the valid scan and the given app lists. -/
def paramsW (e v : List String) : FirewallParams := ⟨scanW, e, v⟩

/-- All external calls of `initiateConnection` succeed. -/
def envOkW : ConnEnv := ⟨true, true, true, 7, true⟩

/-- `::socket` fails. -/
def envBadW : ConnEnv := ⟨false, true, true, 7, true⟩

/-- Sample tunnel device name. -/
def tunNameW : String := "wg0"

/-- Sample tunnel local address. -/
def tunLocalW : String := "10.0.0.2"

/-- Sample tunnel remote address. -/
def tunRemoteW : String := "10.0.0.1"

/-- Ambient `rp_filter` value 1 (strict). -/
def rp0W : String := "1"

/-- The string of the loose `rp_filter` value. -/
def twoStr : String := "2"

/-- A successful `initiateConnection` with no tracked apps. -/
def opInitW : Op := Op.initiate (paramsW [] []) tunNameW tunLocalW tunRemoteW envOkW snapW

/-! ### Claim C1 -/

/-- Claim C1 counterexample: after a successful `initiateConnection`
followed by `shutdownConnection`, the previous tunnel local address still
holds the session's value and the saved `rp_filter` value still holds the
value saved at session start — neither is reset to its empty initial
value, contradicting the claim that all previous-state fields are
cleared. -/
theorem c1_counterexample :
    (run rp0W [opInitW, Op.shutdown snapW]).previousTunnelDeviceLocalAddress = tunLocalW ∧
    (run rp0W [opInitW, Op.shutdown snapW]).previousRPFilter = rp0W ∧
    tunLocalW ≠ emptyStr ∧ rp0W ≠ emptyStr := by
  refine ⟨by decide, by decide, by decide, by decide⟩

/-- Claim C1 (amended): for every state, `shutdownConnection` closes the
socket (descriptor back to `-1`) and clears the previous network scan, but
it leaves the previous tunnel local address and the saved `rp_filter`
value unchanged. -/
theorem shutdownConnection_state_fields (snap : ProcSnap) (s : Sys) :
    (shutdownConnection snap s).previousNetScan = NetScan.cleared ∧
    (shutdownConnection snap s).sockFd = -1 ∧
    (shutdownConnection snap s).previousTunnelDeviceLocalAddress =
      s.previousTunnelDeviceLocalAddress ∧
    (shutdownConnection snap s).previousRPFilter = s.previousRPFilter := by
  unfold shutdownConnection teardownReversePathFiltering
  dsimp only
  split <;> exact ⟨rfl, rfl, rfl, rfl⟩

/-! ### Claim C6 -/

/-- Claim C6 counterexample: run session 1 with `rp_filter = "1"` (saved
and set to 2, restored on shutdown), change the sysctl out-of-band to
`"2"`, then run session 2: its `setupReversePathFiltering` reads 2 and
saves nothing (the saved-value field still holds session 1's `"1"` before
and after the session-2 `initiateConnection`), yet session 2's
`shutdownConnection` still rewrites the sysctl from `"2"` to `"1"` — it
restores a value that was not saved during that session. -/
theorem c6_counterexample :
    (run rp0W [opInitW, Op.shutdown snapW, Op.envRpFilter twoStr]).previousRPFilter
      = rp0W ∧
    (run rp0W [opInitW, Op.shutdown snapW, Op.envRpFilter twoStr, opInitW]).previousRPFilter
      = rp0W ∧
    (run rp0W [opInitW, Op.shutdown snapW, Op.envRpFilter twoStr, opInitW]).kernel.rpSysctl
      = twoStr ∧
    (run rp0W [opInitW, Op.shutdown snapW, Op.envRpFilter twoStr, opInitW,
        Op.shutdown snapW]).kernel.rpSysctl = rp0W ∧
    rp0W ≠ twoStr := by
  refine ⟨by decide, by decide, by decide, by decide, by decide⟩

/-- Claim C6 (amended): `setupReversePathFiltering` saves the old sysctl
value exactly when the read succeeds and the value is not already 2 (on a
failed read it clears the field, and on the already-2 path it leaves the
field as it was — possibly holding a value saved in an *earlier* session);
`shutdownConnection` restores the sysctl iff the saved-value field is
non-empty, writing exactly the field's current value, and does not clear
the field. -/
theorem rpFilter_save_restore (snap : ProcSnap) (s : Sys) (readOk : Bool) :
    ((setupReversePathFiltering readOk s).previousRPFilter =
      if readOk then
        (if toIntQ s.kernel.rpSysctl ≠ 2 then s.kernel.rpSysctl else s.previousRPFilter)
      else emptyStr) ∧
    ((setupReversePathFiltering readOk s).kernel.rpSysctl =
      if readOk ∧ toIntQ s.kernel.rpSysctl ≠ 2 then twoStr else s.kernel.rpSysctl) ∧
    ((shutdownConnection snap s).kernel.rpSysctl =
      if s.previousRPFilter ≠ emptyStr then s.previousRPFilter else s.kernel.rpSysctl) ∧
    ((shutdownConnection snap s).previousRPFilter = s.previousRPFilter) := by
  refine ⟨?_, ?_, ?_, ?_⟩
  · unfold setupReversePathFiltering
    by_cases h1 : readOk = true
    · by_cases h2 : toIntQ s.kernel.rpSysctl ≠ 2 <;> simp [h1, h2]
    · have h1f : readOk = false := by simpa using h1
      simp [h1f]
  · unfold setupReversePathFiltering
    by_cases h1 : readOk = true
    · by_cases h2 : toIntQ s.kernel.rpSysctl ≠ 2 <;> simp [h1, h2, twoStr]
    · have h1f : readOk = false := by simpa using h1
      simp [h1f]
  · unfold shutdownConnection teardownReversePathFiltering
    dsimp only
    by_cases h : s.previousRPFilter ≠ emptyStr
    · rw [if_pos h, if_pos h]
    · rw [if_neg h, if_neg h]
      show (removeRoutingPolicyForSourceIp _ _ (removeRoutingPolicyForSourceIp _ _ _)).rpSysctl
        = s.kernel.rpSysctl
      rw [rpSysctl_removeRP, rpSysctl_removeRP]
      rfl
  · unfold shutdownConnection teardownReversePathFiltering
    dsimp only
    split <;> rfl

/-! ### Claim C8 -/

/-- Claim C8: when `::socket`, `::bind` or the subscription send fails,
`initiateConnection` leaves the state exactly as the implicit shutdown of
step 1 left it (identical to the starting state when no session was open):
the socket descriptor is `-1` and no other field — maps, previous scan,
previous tunnel address, saved `rp_filter`, anchors, routes, rules,
cgroups — is mutated by the failed attempt. -/
theorem initiateConnection_failure_no_mutation
    (params : FirewallParams) (tn tl tr : String) (env : ConnEnv) (snap : ProcSnap)
    (s : Sys)
    (h : ¬ (env.socketOk = true ∧ env.bindOk = true ∧ env.subscribeOk = true)) :
    initiateConnection params tn tl tr env snap s =
      (if s.sockFd = -1 then s else shutdownConnection snap s) := by
  have hs0 : (if s.sockFd ≠ -1 then shutdownConnection snap s else s) =
      (if s.sockFd = -1 then s else shutdownConnection snap s) := by
    by_cases hs : s.sockFd = -1 <;> simp [hs]
  unfold initiateConnection
  by_cases h1 : env.socketOk = true
  · by_cases h2 : env.bindOk = true
    · by_cases h3 : env.subscribeOk = true
      · exact absurd ⟨h1, h2, h3⟩ h
      · simp [h1, h2, h3, hs0]
    · simp [h1, h2, hs0]
  · simp [h1, hs0]

/-- Claim C8 witness: a concrete failing `::socket` call from the idle
initial state leaves the state unchanged. -/
theorem c8_witness :
    initiateConnection (paramsW [] []) tunNameW tunLocalW tunRemoteW envBadW snapW
        (initSys rp0W) =
      (if (initSys rp0W).sockFd = -1 then initSys rp0W
       else shutdownConnection snapW (initSys rp0W)) :=
  initiateConnection_failure_no_mutation (paramsW [] []) tunNameW tunLocalW tunRemoteW
    envBadW snapW (initSys rp0W) (by decide)

/-! ### Claim C7 -/

/-- A map already tracking `pathA` with an empty pid set. -/
def mC7 : AppMap := ⟨[(pathA, [])]⟩

/-- A snapshot where pid 5 runs `pathA`. -/
def snapC7 : ProcSnap := ⟨[⟨5, pathA, 1⟩]⟩

/-- Claim C7 counterexample: `pathA` is already tracked (with pid set `[]`),
yet the add phase replaces its entry with the fresh `/proc` scan result
`[5]` — the existing entry is not left unchanged. -/
theorem c7_counterexample :
    amLookup mC7 pathA = some [] ∧
    amLookup (addAppsF 2 snapC7 [pathA] mC7 CGroup.vpnExclusions).1 pathA = some [5] := by
  refine ⟨by decide, by decide⟩

/-- Claim C7 (amended): `addApps` (re-)inserts an entry for *every* path in
the desired list — tracked or not — resetting its pid set to the fresh
`/proc` scan result; paths not in the desired list are untouched by the
add phase. -/
theorem addApps_resets_tracked_entries
    (fuel : Nat) (snap : ProcSnap) (apps : List String) (m : AppMap) (g : CGroup)
    (a b : String) (ha : memStr apps a = true) (hb : memStr apps b = false) :
    amLookup (addAppsF fuel snap apps m g).1 a = some (scanFold snap a) ∧
    amLookup (addAppsF fuel snap apps m g).1 b = amLookup m b := by
  constructor <;> simp [amLookup_addAppsF, ha, hb]

/-- Claim C7 witness: the amended statement at the concrete counterexample
inputs. -/
theorem c7_witness :
    amLookup (addAppsF 2 snapC7 [pathA] mC7 CGroup.vpnExclusions).1 pathA =
      some (scanFold snapC7 pathA) ∧
    amLookup (addAppsF 2 snapC7 [pathA] mC7 CGroup.vpnExclusions).1 pathB =
      amLookup mC7 pathB :=
  addApps_resets_tracked_entries 2 snapC7 [pathA] mC7 CGroup.vpnExclusions pathA pathB
    (by decide) (by decide)

/-! ### Claim C9 -/

/-- A transiently inconsistent snapshot whose `PPid` edges form a cycle:
pid 1's parent is 2 and pid 2's parent is 1. -/
def snapCyc : ProcSnap := ⟨[⟨1, pathA, 2⟩, ⟨2, pathA, 1⟩]⟩

theorem addPidOk_cyc_false (n : Nat) :
    addPidOk n snapCyc 1 = false ∧ addPidOk n snapCyc 2 = false := by
  induction n with
  | zero => exact ⟨rfl, rfl⟩
  | succ n ih =>
      constructor
      · show (childPidsOf snapCyc 1).all (fun c => addPidOk n snapCyc c) = false
        rw [show childPidsOf snapCyc 1 = [2] from by decide]
        simpa using ih.2
      · show (childPidsOf snapCyc 2).all (fun c => addPidOk n snapCyc c) = false
        rw [show childPidsOf snapCyc 2 = [1] from by decide]
        simpa using ih.1

/-- Claim C9 counterexample: on the cyclic snapshot the descendant
recursion of `addPidToCgroup` / `removePidFromCgroup` (which the C++ code
runs with no depth bound) exhausts every finite recursion depth — it does
not terminate. -/
theorem c9_counterexample : ¬ addPidTerminates snapCyc 1 := by
  rintro ⟨n, hn⟩
  rw [(addPidOk_cyc_false n).1] at hn
  exact Bool.false_ne_true hn

/-- Claim C9 (amended): the code bounds the recursion by nothing, so
termination holds only for snapshots whose `PPid` edges are acyclic —
equivalently (for the finite `/proc` graph) those admitting a rank that
strictly decreases from parent to child; for such snapshots depth
`rank p + 1` suffices, while the cyclic snapshot above diverges. -/
theorem addPid_terminates_of_ranked (snap : ProcSnap) (rank : Nat → Nat)
    (hr : ∀ e ∈ snap.entries, rank e.pid < rank e.ppid) (p : Nat) :
    addPidOk (rank p + 1) snap p = true := by
  suffices hgen : ∀ n q, rank q < n → addPidOk n snap q = true from
    hgen (rank p + 1) p (Nat.lt_succ_self _)
  intro n
  induction n with
  | zero => exact fun q h => absurd h (Nat.not_lt_zero _)
  | succ n ih =>
      intro q hq
      show (childPidsOf snap q).all (fun c => addPidOk n snap c) = true
      rw [List.all_eq_true]
      intro c hc
      apply ih
      have hc2 : isChildOf snap q c = true := (List.mem_filter.mp hc).2
      unfold isChildOf at hc2
      rcases hf : snap.entries.find? (fun e => e.pid = c) with _ | e
      · rw [hf] at hc2
        exact absurd hc2 (by simp)
      · rw [hf] at hc2
        have hppid : e.ppid = q := by simpa using hc2
        have hpid : e.pid = c := by simpa using List.find?_some hf
        have hmem : e ∈ snap.entries := List.mem_of_find?_eq_some hf
        have := hr e hmem
        rw [hpid, hppid] at this
        exact Nat.lt_of_lt_of_le this (Nat.lt_succ_iff.mp hq)

/-- An acyclic snapshot (pid 2 is a child of pid 1) with a parent-dominant
rank. -/
def snapAcy : ProcSnap := ⟨[⟨2, pathA, 1⟩]⟩

/-- The rank witnessing acyclicity of `snapAcy`. -/
def rankAcy : Nat → Nat := fun p => if p = 1 then 1 else 0

/-- Claim C9 witness: on the concrete acyclic snapshot the recursion from
pid 2 completes within depth `rankAcy 2 + 1`. -/
theorem c9_witness : addPidOk (rankAcy 2 + 1) snapAcy 2 = true :=
  addPid_terminates_of_ranked snapAcy rankAcy (by decide) 2

/-! ### Projection helpers for the public operations -/

theorem updateApps_prevScan (snap : ProcSnap) (e v : List String) (s : Sys) :
    (updateApps snap e v s).previousNetScan = s.previousNetScan := rfl

theorem updateApps_excl (snap : ProcSnap) (e v : List String) (s : Sys) :
    (updateApps snap e v s).exclusionsMap =
      (addAppsF (defaultFuel snap) snap (if s.previousNetScan.isValid then e else [])
        (removeAppsMap s.exclusionsMap (if s.previousNetScan.isValid then e else []))
        CGroup.vpnExclusions).1 := rfl

theorem updateApps_vpn (snap : ProcSnap) (e v : List String) (s : Sys) :
    (updateApps snap e v s).vpnOnlyMap =
      (addAppsF (defaultFuel snap) snap v (removeAppsMap s.vpnOnlyMap v)
        CGroup.vpnOnly).1 := rfl

theorem updateNetwork_prevScan (params : FirewallParams) (tn tl tr : String) (s : Sys) :
    (updateNetwork params tn tl tr s).previousNetScan = params.splitTunnelNetScan := rfl

theorem updateNetwork_prevTL (params : FirewallParams) (tn tl tr : String) (s : Sys) :
    (updateNetwork params tn tl tr s).previousTunnelDeviceLocalAddress = tl := rfl

theorem updateNetwork_excl (params : FirewallParams) (tn tl tr : String) (s : Sys) :
    (updateNetwork params tn tl tr s).exclusionsMap = s.exclusionsMap := rfl

theorem updateNetwork_vpn (params : FirewallParams) (tn tl tr : String) (s : Sys) :
    (updateNetwork params tn tl tr s).vpnOnlyMap = s.vpnOnlyMap := rfl

theorem setupRPF_excl (b : Bool) (s : Sys) :
    (setupReversePathFiltering b s).exclusionsMap = s.exclusionsMap := by
  unfold setupReversePathFiltering
  split <;> [skip; rfl]
  split <;> rfl

theorem setupRPF_vpn (b : Bool) (s : Sys) :
    (setupReversePathFiltering b s).vpnOnlyMap = s.vpnOnlyMap := by
  unfold setupReversePathFiltering
  split <;> [skip; rfl]
  split <;> rfl

theorem setupRPF_prevScan (b : Bool) (s : Sys) :
    (setupReversePathFiltering b s).previousNetScan = s.previousNetScan := by
  unfold setupReversePathFiltering
  split <;> [skip; rfl]
  split <;> rfl

theorem shutdown_excl (snap : ProcSnap) (s : Sys) :
    (shutdownConnection snap s).exclusionsMap = AppMap.empty := by
  unfold shutdownConnection teardownReversePathFiltering
  dsimp only
  split <;> rfl

theorem shutdown_vpn (snap : ProcSnap) (s : Sys) :
    (shutdownConnection snap s).vpnOnlyMap = AppMap.empty := by
  unfold shutdownConnection teardownReversePathFiltering
  dsimp only
  split <;> rfl

theorem shutdown_prevScan (snap : ProcSnap) (s : Sys) :
    (shutdownConnection snap s).previousNetScan = NetScan.cleared := by
  unfold shutdownConnection teardownReversePathFiltering
  dsimp only

theorem shutdown_prevTL (snap : ProcSnap) (s : Sys) :
    (shutdownConnection snap s).previousTunnelDeviceLocalAddress =
      s.previousTunnelDeviceLocalAddress := by
  unfold shutdownConnection teardownReversePathFiltering
  dsimp only
  split <;> rfl

theorem addLaunched_prevScan (pid : Nat) (snap : ProcSnap) (s : Sys) :
    (addLaunchedApp pid snap s).previousNetScan = s.previousNetScan := by
  unfold addLaunchedApp
  dsimp only
  split
  · rfl
  · split
    · split <;> rfl
    · split <;> rfl

/-- `initiateConnection` when one of socket / bind / subscribe fails:
exactly the implicit shutdown of step 1 (a no-op when idle). -/
theorem initiateFailAux (params : FirewallParams) (tn tl tr : String)
    (env : ConnEnv) (snap : ProcSnap) (s : Sys)
    (h : ¬ (env.socketOk = true ∧ env.bindOk = true ∧ env.subscribeOk = true)) :
    initiateConnection params tn tl tr env snap s =
      (if s.sockFd ≠ -1 then shutdownConnection snap s else s) := by
  unfold initiateConnection
  by_cases h1 : env.socketOk = true
  · by_cases h2 : env.bindOk = true
    · by_cases h3 : env.subscribeOk = true
      · exact absurd ⟨h1, h2, h3⟩ h
      · simp [h1, h2, h3]
    · simp [h1, h2]
  · simp [h1]

/-- `initiateConnection` in the all-successful case, written as the
composition of its phases. -/
theorem initiate_success_eq (params : FirewallParams) (tn tl tr : String)
    (env : ConnEnv) (snap : ProcSnap) (s : Sys)
    (h1 : env.socketOk = true) (h2 : env.bindOk = true) (h3 : env.subscribeOk = true) :
    initiateConnection params tn tl tr env snap s =
      { setupReversePathFiltering env.rpReadOk
          (updateSplitTunnel params tn tl tr params.excludeApps params.vpnOnlyApps snap
            { (if s.sockFd ≠ -1 then shutdownConnection snap s else s) with
                sockFd := env.fd,
                kernel := setupFirewall
                  (if s.sockFd ≠ -1 then shutdownConnection snap s else s).kernel })
        with readNotifier := true } := by
  unfold initiateConnection
  simp [h1, h2, h3]

/-! ### Claim C2 -/

/-- The gating invariant: an invalid previous scan forces an empty
exclusions map. -/
def ScanGate (s : Sys) : Prop :=
  s.previousNetScan.isValid = false → s.exclusionsMap = AppMap.empty

theorem removeAppsMap_nilKeep (m : AppMap) : removeAppsMap m [] = AppMap.empty := by
  unfold removeAppsMap AppMap.empty
  congr 1
  induction m.entries with
  | nil => rfl
  | cons e es ih => simp [List.filter_cons, memStr, ih]

theorem addAppsF_nilApps (fuel : Nat) (snap : ProcSnap) (m : AppMap) (g : CGroup) :
    (addAppsF fuel snap [] m g).1 = m := rfl

theorem scanGate_updateApps (snap : ProcSnap) (e v : List String) (s : Sys) :
    ScanGate (updateApps snap e v s) := by
  intro h
  rw [updateApps_prevScan] at h
  rw [updateApps_excl]
  have hv : s.previousNetScan.isValid = false := h
  rw [if_neg (by simp [hv])]
  rw [addAppsF_nilApps, removeAppsMap_nilKeep]

theorem scanGate_updateSplitTunnel (params : FirewallParams) (tn tl tr : String)
    (e v : List String) (snap : ProcSnap) (s : Sys) :
    ScanGate (updateSplitTunnel params tn tl tr e v snap s) :=
  scanGate_updateApps snap e v (updateNetwork params tn tl tr s)

theorem scanGate_shutdown (snap : ProcSnap) (s : Sys) : ScanGate (shutdownConnection snap s) :=
  fun _ => shutdown_excl snap s

theorem amContains_empty (a : String) : amContains AppMap.empty a = false := rfl

theorem scanGate_setupRPF (b : Bool) (s : Sys) (hs : ScanGate s) :
    ScanGate (setupReversePathFiltering b s) := by
  intro h
  rw [setupRPF_excl]
  refine hs ?_
  rw [← setupRPF_prevScan b s]
  exact h

theorem scanGate_step (s : Sys) (op : Op) (ih : ScanGate s) : ScanGate (step s op) := by
  cases op with
  | initiate params tn tl tr env snap =>
      show ScanGate (initiateConnection params tn tl tr env snap s)
      by_cases h1 : env.socketOk = true
      · by_cases h2 : env.bindOk = true
        · by_cases h3 : env.subscribeOk = true
          · rw [initiate_success_eq params tn tl tr env snap s h1 h2 h3]
            exact scanGate_setupRPF env.rpReadOk _
              (scanGate_updateSplitTunnel params tn tl tr params.excludeApps
                params.vpnOnlyApps snap _)
          · rw [initiateFailAux params tn tl tr env snap s (fun hh => h3 hh.2.2)]
            split
            · exact scanGate_shutdown snap s
            · exact ih
        · rw [initiateFailAux params tn tl tr env snap s (fun hh => h2 hh.2.1)]
          split
          · exact scanGate_shutdown snap s
          · exact ih
      · rw [initiateFailAux params tn tl tr env snap s (fun hh => h1 hh.1)]
        split
        · exact scanGate_shutdown snap s
        · exact ih
  | updateST params tn tl tr e v snap =>
      exact scanGate_updateSplitTunnel params tn tl tr e v snap s
  | shutdown snap => exact scanGate_shutdown snap s
  | addLaunched pid snap =>
      intro h
      have h2 : s.previousNetScan.isValid = false := by
        rw [← addLaunched_prevScan pid snap s]
        exact h
      have hempty : s.exclusionsMap = AppMap.empty := ih h2
      show (addLaunchedApp pid snap s).exclusionsMap = AppMap.empty
      unfold addLaunchedApp
      dsimp only
      by_cases ha : pathForPid snap pid = emptyStr
      · rw [if_pos ha]
        exact hempty
      · rw [if_neg ha]
        rw [hempty, amContains_empty]
        simp only [Bool.false_eq_true, if_false]
        split
        · rfl
        · exact hempty
  | removeTerminated pid =>
      intro h
      have he : s.exclusionsMap = AppMap.empty := ih h
      show (removeTerminatedApp pid s).exclusionsMap = AppMap.empty
      unfold removeTerminatedApp
      dsimp only
      rw [he]
      rfl
  | envRpFilter v => exact ih

theorem scanGate_run (ops : List Op) (s : Sys) (hs : ScanGate s) :
    ScanGate (ops.foldl step s) := by
  induction ops generalizing s with
  | nil => exact hs
  | cons op ops ih => exact ih (step s op) (scanGate_step s op hs)

/-- Claim C2: after every trace of public operations, if the current
network scan is invalid then the exclusions map is empty (in particular
`addLaunchedApp` inserts nothing into it while the scan is invalid, and
`updateApps` with an invalid scan removes every tracked excluded app). -/
theorem exclusions_empty_when_scan_invalid (rp0 : String) (ops : List Op)
    (h : (run rp0 ops).previousNetScan.isValid = false) :
    (run rp0 ops).exclusionsMap = AppMap.empty :=
  scanGate_run ops (initSys rp0) (fun _ => rfl) h

/-- An `updateSplitTunnel` with an invalid scan and a non-empty excluded
list. -/
def opInvW : Op :=
  Op.updateST ⟨scanInvalid, [pathA], []⟩ tunNameW tunLocalW tunRemoteW [pathA] [] snapW

/-- Claim C2 witness: a concrete trace whose scan ends invalid indeed has
an empty exclusions map. -/
theorem c2_witness :
    (run rp0W [opInitW, opInvW]).previousNetScan.isValid = false ∧
    (run rp0W [opInitW, opInvW]).exclusionsMap = AppMap.empty :=
  ⟨by decide, exclusions_empty_when_scan_invalid rp0W [opInitW, opInvW] (by decide)⟩

/-! ### Claim C5 -/

/-- The rules stored for one table are either none, or exactly one for the
tracked previous address. -/
def tableInv (addr : String) (rs : List String) : Prop :=
  rs = [] ∨ (addr ≠ emptyStr ∧ rs = [addr])

/-- The source-IP rule invariant for both tables. -/
def RuleInv (s : Sys) : Prop :=
  tableInv s.previousNetScan.ipAddress (rulesFor RTable.bypass s.kernel) ∧
  tableInv s.previousTunnelDeviceLocalAddress (rulesFor RTable.vpnOnly s.kernel)

theorem rulesErased (addr : String) (t : RTable) (k : KernelState)
    (h : tableInv addr (rulesFor t k)) :
    rulesFor t (removeRoutingPolicyForSourceIp addr t k) = [] := by
  rw [rulesFor_removeRP_same]
  rcases h with h | ⟨hne, hh⟩
  · by_cases ha : addr = emptyStr <;> simp [ha, h, eraseStr]
  · rw [if_neg hne, hh]
    simp [eraseStr]

theorem tableInv_update (prev new : String) (t : RTable) (k : KernelState)
    (h : tableInv prev (rulesFor t k)) :
    tableInv new (rulesFor t (addRoutingPolicyForSourceIp new t
      (removeRoutingPolicyForSourceIp prev t k))) := by
  rw [rulesFor_addRP_same, rulesErased prev t k h]
  by_cases hn : new = emptyStr
  · simp [hn, tableInv]
  · simp [hn, tableInv]

theorem tableInv_condUpdate (prev new : String) (t : RTable) (k : KernelState)
    (h : tableInv prev (rulesFor t k)) :
    tableInv new (rulesFor t
      (if prev ≠ new then
        addRoutingPolicyForSourceIp new t (removeRoutingPolicyForSourceIp prev t k)
      else k)) := by
  split
  · exact tableInv_update prev new t k h
  · rename_i hnn
    have he : prev = new := not_ne_iff.mp hnn
    subst he
    exact h

theorem rulesFor_updateRoutes (t : RTable) (gw i tn tr : String) (k : KernelState) :
    rulesFor t (updateRoutes gw i tn tr k) = rulesFor t k := by
  unfold rulesFor
  rw [ipRules_updateRoutes]

theorem rulesFor_updateMasquerade (t : RTable) (i : String) (k : KernelState) :
    rulesFor t (updateMasquerade i k) = rulesFor t k := by
  unfold rulesFor
  rw [ipRules_updateMasquerade]

theorem ruleInv_updateNetwork (params : FirewallParams) (tn tl tr : String) (s : Sys)
    (h : RuleInv s) : RuleInv (updateNetwork params tn tl tr s) := by
  obtain ⟨hB, hV⟩ := h
  unfold updateNetwork
  dsimp only
  constructor
  · show tableInv params.splitTunnelNetScan.ipAddress (rulesFor RTable.bypass _)
    rw [rulesFor_updateRoutes]
    have hk1 : tableInv s.previousNetScan.ipAddress (rulesFor RTable.bypass
        (if s.previousNetScan.interfaceName ≠ params.splitTunnelNetScan.interfaceName then
          updateMasquerade params.splitTunnelNetScan.interfaceName s.kernel
        else s.kernel)) := by
      split
      · rw [rulesFor_updateMasquerade]
        exact hB
      · exact hB
    have hk2 := tableInv_condUpdate s.previousNetScan.ipAddress
      params.splitTunnelNetScan.ipAddress RTable.bypass _ hk1
    split
    · rw [rulesFor_addRP_other _ _ _ _ (by simp), rulesFor_removeRP_other _ _ _ _ (by simp)]
      exact hk2
    · exact hk2
  · show tableInv tl (rulesFor RTable.vpnOnly _)
    rw [rulesFor_updateRoutes]
    have hk1 : tableInv s.previousTunnelDeviceLocalAddress (rulesFor RTable.vpnOnly
        (if s.previousNetScan.interfaceName ≠ params.splitTunnelNetScan.interfaceName then
          updateMasquerade params.splitTunnelNetScan.interfaceName s.kernel
        else s.kernel)) := by
      split
      · rw [rulesFor_updateMasquerade]
        exact hV
      · exact hV
    have hk2 : tableInv s.previousTunnelDeviceLocalAddress (rulesFor RTable.vpnOnly
        (if s.previousNetScan.ipAddress ≠ params.splitTunnelNetScan.ipAddress then
          addRoutingPolicyForSourceIp params.splitTunnelNetScan.ipAddress RTable.bypass
            (removeRoutingPolicyForSourceIp s.previousNetScan.ipAddress RTable.bypass
              (if s.previousNetScan.interfaceName ≠ params.splitTunnelNetScan.interfaceName then
                updateMasquerade params.splitTunnelNetScan.interfaceName s.kernel
              else s.kernel))
        else
          (if s.previousNetScan.interfaceName ≠ params.splitTunnelNetScan.interfaceName then
            updateMasquerade params.splitTunnelNetScan.interfaceName s.kernel
          else s.kernel))) := by
      split
      · rw [rulesFor_addRP_other _ _ _ _ (by simp),
          rulesFor_removeRP_other _ _ _ _ (by simp)]
        exact hk1
      · exact hk1
    exact tableInv_condUpdate s.previousTunnelDeviceLocalAddress tl RTable.vpnOnly _ hk2

theorem teardownRPF_ipRules (s : Sys) :
    (teardownReversePathFiltering s).kernel.ipRules = s.kernel.ipRules := by
  unfold teardownReversePathFiltering
  split <;> rfl

theorem removeRP_ipRules_congr (ip : String) (t : RTable) (k k2 : KernelState)
    (h : k.ipRules = k2.ipRules) :
    (removeRoutingPolicyForSourceIp ip t k).ipRules =
      (removeRoutingPolicyForSourceIp ip t k2).ipRules := by
  unfold removeRoutingPolicyForSourceIp
  split <;> simp [h]

theorem shutdown_ipRules (snap : ProcSnap) (s : Sys) :
    (shutdownConnection snap s).kernel.ipRules =
      (removeRoutingPolicyForSourceIp s.previousTunnelDeviceLocalAddress RTable.vpnOnly
        (removeRoutingPolicyForSourceIp s.previousNetScan.ipAddress RTable.bypass
          s.kernel)).ipRules := by
  unfold shutdownConnection teardownReversePathFiltering
  dsimp only
  split <;>
    exact removeRP_ipRules_congr _ _ _ _ (removeRP_ipRules_congr _ _ _ _ rfl)

theorem rulesFor_shutdown (snap : ProcSnap) (s : Sys) (t : RTable) :
    rulesFor t (shutdownConnection snap s).kernel =
      rulesFor t (removeRoutingPolicyForSourceIp s.previousTunnelDeviceLocalAddress
        RTable.vpnOnly (removeRoutingPolicyForSourceIp s.previousNetScan.ipAddress
          RTable.bypass s.kernel)) := by
  unfold rulesFor rulesList
  rw [shutdown_ipRules]

theorem ruleInv_shutdown (snap : ProcSnap) (s : Sys) (h : RuleInv s) :
    RuleInv (shutdownConnection snap s) := by
  obtain ⟨hB, hV⟩ := h
  constructor
  · left
    rw [rulesFor_shutdown]
    rw [rulesFor_removeRP_other _ _ _ _ (by decide)]
    exact rulesErased _ _ _ hB
  · left
    rw [rulesFor_shutdown]
    apply rulesErased
    rw [rulesFor_removeRP_other _ _ _ _ (by decide)]
    exact hV

theorem addLaunched_ipRules (pid : Nat) (snap : ProcSnap) (s : Sys) :
    (addLaunchedApp pid snap s).kernel.ipRules = s.kernel.ipRules := by
  unfold addLaunchedApp
  dsimp only
  split
  · rfl
  · split
    · split <;> rfl
    · split <;> rfl

theorem addLaunched_prevTL (pid : Nat) (snap : ProcSnap) (s : Sys) :
    (addLaunchedApp pid snap s).previousTunnelDeviceLocalAddress =
      s.previousTunnelDeviceLocalAddress := by
  unfold addLaunchedApp
  dsimp only
  split
  · rfl
  · split
    · split <;> rfl
    · split <;> rfl

theorem setupRPF_ipRules (b : Bool) (s : Sys) :
    (setupReversePathFiltering b s).kernel.ipRules = s.kernel.ipRules := by
  unfold setupReversePathFiltering
  split <;> [skip; rfl]
  split <;> rfl

theorem setupRPF_prevTL (b : Bool) (s : Sys) :
    (setupReversePathFiltering b s).previousTunnelDeviceLocalAddress =
      s.previousTunnelDeviceLocalAddress := by
  unfold setupReversePathFiltering
  split <;> [skip; rfl]
  split <;> rfl

theorem ruleInv_addLaunched (pid : Nat) (snap : ProcSnap) (s : Sys) (h : RuleInv s) :
    RuleInv (addLaunchedApp pid snap s) := by
  have e1 : ∀ t, rulesFor t (addLaunchedApp pid snap s).kernel = rulesFor t s.kernel := by
    intro t
    unfold rulesFor rulesList
    rw [addLaunched_ipRules]
  constructor
  · rw [e1, addLaunched_prevScan]
    exact h.1
  · rw [e1, addLaunched_prevTL]
    exact h.2

theorem ruleInv_setupRPF (b : Bool) (s : Sys) (h : RuleInv s) :
    RuleInv (setupReversePathFiltering b s) := by
  have e1 : ∀ t, rulesFor t (setupReversePathFiltering b s).kernel = rulesFor t s.kernel := by
    intro t
    unfold rulesFor rulesList
    rw [setupRPF_ipRules]
  constructor
  · rw [e1, setupRPF_prevScan]
    exact h.1
  · rw [e1, setupRPF_prevTL]
    exact h.2

theorem ruleInv_updateApps (snap : ProcSnap) (e v : List String) (s : Sys)
    (h : RuleInv s) : RuleInv (updateApps snap e v s) := h

theorem ruleInv_step (s : Sys) (op : Op) (ih : RuleInv s) : RuleInv (step s op) := by
  cases op with
  | initiate params tn tl tr env snap =>
      show RuleInv (initiateConnection params tn tl tr env snap s)
      by_cases h1 : env.socketOk = true
      · by_cases h2 : env.bindOk = true
        · by_cases h3 : env.subscribeOk = true
          · rw [initiate_success_eq params tn tl tr env snap s h1 h2 h3]
            refine ruleInv_setupRPF env.rpReadOk _ ?_
            refine ruleInv_updateApps snap _ _ _ ?_
            refine ruleInv_updateNetwork params tn tl tr _ ?_
            show RuleInv (if s.sockFd ≠ -1 then shutdownConnection snap s else s)
            split
            · exact ruleInv_shutdown snap s ih
            · exact ih
          · rw [initiateFailAux params tn tl tr env snap s (fun hh => h3 hh.2.2)]
            split
            · exact ruleInv_shutdown snap s ih
            · exact ih
        · rw [initiateFailAux params tn tl tr env snap s (fun hh => h2 hh.2.1)]
          split
          · exact ruleInv_shutdown snap s ih
          · exact ih
      · rw [initiateFailAux params tn tl tr env snap s (fun hh => h1 hh.1)]
        split
        · exact ruleInv_shutdown snap s ih
        · exact ih
  | updateST params tn tl tr e v snap =>
      exact ruleInv_updateApps snap e v _ (ruleInv_updateNetwork params tn tl tr s ih)
  | shutdown snap => exact ruleInv_shutdown snap s ih
  | addLaunched pid snap => exact ruleInv_addLaunched pid snap s ih
  | removeTerminated pid => exact ih
  | envRpFilter v => exact ih

theorem ruleInv_run (ops : List Op) (s : Sys) (hs : RuleInv s) :
    RuleInv (ops.foldl step s) := by
  induction ops generalizing s with
  | nil => exact hs
  | cons op ops ih => exact ih (step s op) (ruleInv_step s op hs)

/-- Claim C5: after every trace of public operations, at most one
source-IP routing rule exists for the bypass table and at most one for the
vpn-only table (the remove-before-add discipline of `updateNetwork` and
the removals in `shutdownConnection` keep each table's rule list at one
entry for the tracked address, or empty). -/
theorem source_ip_rule_uniqueness (rp0 : String) (ops : List Op) :
    (rulesFor RTable.bypass (run rp0 ops).kernel).length ≤ 1 ∧
    (rulesFor RTable.vpnOnly (run rp0 ops).kernel).length ≤ 1 := by
  have h := ruleInv_run ops (initSys rp0) ⟨Or.inl rfl, Or.inl rfl⟩
  constructor
  · rcases h.1 with h1 | ⟨_, h1⟩ <;> simp [run, h1]
  · rcases h.2 with h2 | ⟨_, h2⟩ <;> simp [run, h2]

/-! ### Membership helper lemmas -/

theorem amMem_iff (m : AppMap) (a : String) (p : Nat) :
    amMem m a p = true ↔ ∃ ps, amLookup m a = some ps ∧ p ∈ ps := by
  unfold amMem
  cases h : amLookup m a with
  | some ps => simp [h]
  | none => simp [h]

theorem amContains_of_amMem (m : AppMap) (a : String) (p : Nat)
    (h : amMem m a p = true) : amContains m a = true := by
  unfold amMem at h
  unfold amContains
  cases hl : amLookup m a with
  | some ps => simp [hl]
  | none => rw [hl] at h; exact absurd h (by simp)

theorem mem_pidInsert (s : List Nat) (q p : Nat) :
    p ∈ pidInsert s q ↔ p ∈ s ∨ p = q := by
  unfold pidInsert
  split
  · rename_i hq
    constructor
    · exact Or.inl
    · rintro (h | rfl)
      · exact h
      · exact hq
  · simp

theorem mem_foldl_pidInsert (ps acc : List Nat) (p : Nat) :
    p ∈ ps.foldl pidInsert acc ↔ p ∈ acc ∨ p ∈ ps := by
  induction ps generalizing acc with
  | nil => simp
  | cons q ps ih =>
      rw [List.foldl_cons, ih, mem_pidInsert]
      constructor
      · rintro ((h | rfl) | h)
        · exact Or.inl h
        · exact Or.inr (List.mem_cons_self _ _)
        · exact Or.inr (List.mem_cons_of_mem q h)
      · rintro (h | h)
        · exact Or.inl (Or.inl h)
        · rcases List.mem_cons.mp h with rfl | h
          · exact Or.inl (Or.inr rfl)
          · exact Or.inr h

theorem mem_scanFold (snap : ProcSnap) (a : String) (p : Nat)
    (h : p ∈ scanFold snap a) : pathForPid snap p = a := by
  unfold scanFold at h
  rcases (mem_foldl_pidInsert _ _ _).mp h with h | h
  · exact absurd h (List.not_mem_nil p)
  · unfold pidsForPath at h
    have := (List.mem_filter.mp h).2
    simpa using this

theorem amContains_amInsertPid (m : AppMap) (a : String) (p : Nat) (b : String) :
    amContains (amInsertPid m a p) b = amContains m b := by
  unfold amContains
  rw [amLookup_amInsertPid]
  by_cases hb : b = a
  · subst hb
    cases hml : amLookup m b <;> simp [hml]
  · simp [hb]

theorem amMem_amInsertPid (m : AppMap) (a : String) (q : Nat) (b : String) (p : Nat)
    (h : amMem (amInsertPid m a q) b p = true) :
    amMem m b p = true ∨ (p = q ∧ b = a) := by
  rw [amMem_iff] at h
  obtain ⟨ps, hps, hmem⟩ := h
  rw [amLookup_amInsertPid] at hps
  by_cases hb : b = a
  · subst hb
    rw [if_pos rfl] at hps
    cases hml : amLookup m b with
    | some ps0 =>
        rw [hml] at hps
        simp at hps
        rw [← hps] at hmem
        rcases (mem_pidInsert _ _ _).mp hmem with h | rfl
        · left
          rw [amMem_iff]
          exact ⟨ps0, hml, h⟩
        · right
          exact ⟨rfl, rfl⟩
    | none => rw [hml] at hps; exact absurd hps (by simp)
  · rw [if_neg hb] at hps
    left
    rw [amMem_iff]
    exact ⟨ps, hps, hmem⟩

theorem amMem_amRemovePid (m : AppMap) (q : Nat) (b : String) (p : Nat)
    (h : amMem (amRemovePid m q) b p = true) : amMem m b p = true := by
  rw [amMem_iff] at h
  obtain ⟨ps, hps, hmem⟩ := h
  rw [amLookup_amRemovePid] at hps
  cases hml : amLookup m b with
  | some ps0 =>
      rw [hml] at hps
      simp at hps
      rw [← hps] at hmem
      rw [amMem_iff]
      exact ⟨ps0, hml, (List.mem_filter.mp hmem).1⟩
  | none => rw [hml] at hps; exact absurd hps (by simp)

/-- Membership after the remove/add pair of `updateApps`: either the pid
survived from before, or it came from the `/proc` scan (so its path equals
the key). -/
theorem amMem_addRemove (fuel : Nat) (snap : ProcSnap) (el : List String)
    (m : AppMap) (g : CGroup) (a : String) (p : Nat)
    (h : amMem (addAppsF fuel snap el (removeAppsMap m el) g).1 a p = true) :
    amMem m a p = true ∨ pathForPid snap p = a := by
  rw [amMem_iff] at h
  obtain ⟨ps, hps, hmem⟩ := h
  rw [amLookup_addAppsF] at hps
  split at hps
  · right
    have hsc : scanFold snap a = ps := by
      injection hps
    rw [← hsc] at hmem
    exact mem_scanFold snap a p hmem
  · rw [amLookup_removeAppsMap] at hps
    split at hps
    · left
      rw [amMem_iff]
      exact ⟨ps, hps, hmem⟩
    · exact absurd hps (by simp)

/-- Membership in the `updateApps` result, exclusions side. -/
theorem amMem_updateApps_excl (snap : ProcSnap) (e v : List String) (s : Sys)
    (a : String) (p : Nat)
    (h : amMem (updateApps snap e v s).exclusionsMap a p = true) :
    amMem s.exclusionsMap a p = true ∨ pathForPid snap p = a := by
  rw [updateApps_excl] at h
  exact amMem_addRemove _ _ _ _ _ _ _ h

/-- Membership in the `updateApps` result, vpn-only side. -/
theorem amMem_updateApps_vpn (snap : ProcSnap) (e v : List String) (s : Sys)
    (a : String) (p : Nat)
    (h : amMem (updateApps snap e v s).vpnOnlyMap a p = true) :
    amMem s.vpnOnlyMap a p = true ∨ pathForPid snap p = a := by
  rw [updateApps_vpn] at h
  exact amMem_addRemove _ _ _ _ _ _ _ h

theorem amMem_empty (a : String) (p : Nat) : amMem AppMap.empty a p = false := rfl

/-! ### Claim C3 -/

/-- No path of `l1` occurs in `l2`. -/
def listDisjB (l1 l2 : List String) : Bool :=
  l1.all (fun a => !(memStr l2 a))

theorem listDisjB_spec (l1 l2 : List String) (h : listDisjB l1 l2 = true) (a : String)
    (ha : memStr l1 a = true) : memStr l2 a = false := by
  unfold listDisjB at h
  rw [List.all_eq_true] at h
  have := h a ((memStr_iff l1 a).mp ha)
  simpa using this

/-- The `/proc` snapshot an operation consults (trivial for operations
that do not read `/proc`). -/
def opSnap : Op → ProcSnap
  | Op.initiate _ _ _ _ _ snap => snap
  | Op.updateST _ _ _ _ _ _ snap => snap
  | Op.shutdown snap => snap
  | Op.addLaunched _ snap => snap
  | Op.removeTerminated _ => ⟨[]⟩
  | Op.envRpFilter _ => ⟨[]⟩

/-- Side conditions of the amended disjointness claim: the operation reads
the fixed snapshot `snap0` (the pid→path resolution is stable across the
trace) and its two app lists share no path. -/
def opOk (snap0 : ProcSnap) (op : Op) : Bool :=
  match op with
  | Op.initiate params _ _ _ _ snap =>
      decide (snap = snap0) && listDisjB params.excludeApps params.vpnOnlyApps
  | Op.updateST _ _ _ _ e v snap => decide (snap = snap0) && listDisjB e v
  | Op.shutdown snap => decide (snap = snap0)
  | Op.addLaunched _ snap => decide (snap = snap0)
  | Op.removeTerminated _ => true
  | Op.envRpFilter _ => true

/-- The inductive invariant behind path-disjointness: every tracked pid's
path equals its key, and no key is tracked by both maps. -/
def Inv3 (snap0 : ProcSnap) (s : Sys) : Prop :=
  (∀ a p, amMem s.exclusionsMap a p = true → pathForPid snap0 p = a) ∧
  (∀ a p, amMem s.vpnOnlyMap a p = true → pathForPid snap0 p = a) ∧
  (∀ a, amContains s.exclusionsMap a = true → amContains s.vpnOnlyMap a = false)

theorem amContains_addRemove (fuel : Nat) (snap : ProcSnap) (el : List String)
    (m : AppMap) (g : CGroup) (b : String)
    (h : amContains (addAppsF fuel snap el (removeAppsMap m el) g).1 b = true) :
    memStr el b = true := by
  unfold amContains at h
  rw [amLookup_addAppsF] at h
  split at h
  · assumption
  · rw [amLookup_removeAppsMap] at h
    split at h
    · assumption
    · exact absurd h (by simp)

theorem amContains_updateApps_excl (snap : ProcSnap) (e v : List String) (s : Sys)
    (b : String) (h : amContains (updateApps snap e v s).exclusionsMap b = true) :
    memStr (if s.previousNetScan.isValid then e else []) b = true := by
  rw [updateApps_excl] at h
  exact amContains_addRemove _ _ _ _ _ _ h

theorem amContains_updateApps_vpn (snap : ProcSnap) (e v : List String) (s : Sys)
    (b : String) (h : amContains (updateApps snap e v s).vpnOnlyMap b = true) :
    memStr v b = true := by
  rw [updateApps_vpn] at h
  exact amContains_addRemove _ _ _ _ _ _ h

theorem amContains_amRemovePid (m : AppMap) (q : Nat) (b : String) :
    amContains (amRemovePid m q) b = amContains m b := by
  unfold amContains
  rw [amLookup_amRemovePid]
  cases hml : amLookup m b <;> simp [hml]

theorem inv3_updateApps (snap0 : ProcSnap) (e v : List String) (s : Sys)
    (hd : listDisjB e v = true) (h : Inv3 snap0 s) :
    Inv3 snap0 (updateApps snap0 e v s) := by
  refine ⟨?_, ?_, ?_⟩
  · intro a p hm
    rcases amMem_updateApps_excl snap0 e v s a p hm with hold | hpath
    · exact h.1 a p hold
    · exact hpath
  · intro a p hm
    rcases amMem_updateApps_vpn snap0 e v s a p hm with hold | hpath
    · exact h.2.1 a p hold
    · exact hpath
  · intro b hcb
    have he := amContains_updateApps_excl snap0 e v s b hcb
    have hbe : memStr e b = true := by
      revert he
      split
      · exact id
      · intro he
        exact absurd he (by simp [memStr])
    have hv : memStr v b = false := listDisjB_spec e v hd b hbe
    cases hcv : amContains (updateApps snap0 e v s).vpnOnlyMap b with
    | false => rfl
    | true =>
        have := amContains_updateApps_vpn snap0 e v s b hcv
        rw [this] at hv
        exact absurd hv (by simp)

theorem inv3_shutdown (snap snap0 : ProcSnap) (s : Sys) :
    Inv3 snap0 (shutdownConnection snap s) := by
  refine ⟨?_, ?_, ?_⟩
  · intro a p hm
    rw [shutdown_excl] at hm
    simp [amMem_empty] at hm
  · intro a p hm
    rw [shutdown_vpn] at hm
    simp [amMem_empty] at hm
  · intro b hcb
    rw [shutdown_excl] at hcb
    simp [amContains_empty] at hcb

theorem inv3_setupRPF (b : Bool) (snap0 : ProcSnap) (s : Sys) (h : Inv3 snap0 s) :
    Inv3 snap0 (setupReversePathFiltering b s) := by
  refine ⟨?_, ?_, ?_⟩
  · intro a p hm
    rw [setupRPF_excl] at hm
    exact h.1 a p hm
  · intro a p hm
    rw [setupRPF_vpn] at hm
    exact h.2.1 a p hm
  · intro x hcx
    rw [setupRPF_vpn]
    rw [setupRPF_excl] at hcx
    exact h.2.2 x hcx

theorem inv3_addLaunched (pid : Nat) (snap0 : ProcSnap) (s : Sys) (h : Inv3 snap0 s) :
    Inv3 snap0 (addLaunchedApp pid snap0 s) := by
  unfold addLaunchedApp
  dsimp only
  by_cases ha : pathForPid snap0 pid = emptyStr
  · rw [if_pos ha]
    exact h
  · rw [if_neg ha]
    by_cases hce : amContains s.exclusionsMap (pathForPid snap0 pid) = true
    · rw [if_pos hce]
      by_cases hv : s.previousNetScan.isValid = true
      · rw [if_pos hv]
        refine ⟨?_, h.2.1, ?_⟩
        · intro a p hm
          rcases amMem_amInsertPid _ _ _ _ _ hm with hold | ⟨hpq, hba⟩
          · exact h.1 a p hold
          · subst hpq
            subst hba
            rfl
        · intro b hcb
          rw [amContains_amInsertPid] at hcb
          exact h.2.2 b hcb
      · rw [if_neg hv]
        exact h
    · rw [if_neg hce]
      by_cases hcv : amContains s.vpnOnlyMap (pathForPid snap0 pid) = true
      · rw [if_pos hcv]
        refine ⟨h.1, ?_, ?_⟩
        · intro a p hm
          rcases amMem_amInsertPid _ _ _ _ _ hm with hold | ⟨hpq, hba⟩
          · exact h.2.1 a p hold
          · subst hpq
            subst hba
            rfl
        · intro b hcb
          rw [amContains_amInsertPid]
          exact h.2.2 b hcb
      · rw [if_neg hcv]
        exact h

theorem inv3_removeTerminated (pid : Nat) (snap0 : ProcSnap) (s : Sys) (h : Inv3 snap0 s) :
    Inv3 snap0 (removeTerminatedApp pid s) := by
  refine ⟨?_, ?_, ?_⟩
  · intro a p hm
    exact h.1 a p (amMem_amRemovePid _ _ _ _ hm)
  · intro a p hm
    exact h.2.1 a p (amMem_amRemovePid _ _ _ _ hm)
  · intro b hcb
    show amContains (amRemovePid s.vpnOnlyMap pid) b = false
    rw [amContains_amRemovePid]
    refine h.2.2 b ?_
    show amContains s.exclusionsMap b = true
    rw [← amContains_amRemovePid s.exclusionsMap pid b]
    exact hcb

theorem inv3_step (snap0 : ProcSnap) (s : Sys) (op : Op)
    (hop : opOk snap0 op = true) (h : Inv3 snap0 s) : Inv3 snap0 (step s op) := by
  cases op with
  | initiate params tn tl tr env snap =>
      simp only [opOk] at hop
      rw [Bool.and_eq_true] at hop
      have hsnap : snap = snap0 := of_decide_eq_true hop.1
      subst hsnap
      show Inv3 snap (initiateConnection params tn tl tr env snap s)
      by_cases h1 : env.socketOk = true
      · by_cases h2 : env.bindOk = true
        · by_cases h3 : env.subscribeOk = true
          · rw [initiate_success_eq params tn tl tr env snap s h1 h2 h3]
            refine inv3_setupRPF env.rpReadOk snap _ ?_
            refine inv3_updateApps snap _ _ _ hop.2 ?_
            show Inv3 snap (if s.sockFd ≠ -1 then shutdownConnection snap s else s)
            split
            · exact inv3_shutdown snap snap s
            · exact h
          · rw [initiateFailAux params tn tl tr env snap s (fun hh => h3 hh.2.2)]
            split
            · exact inv3_shutdown snap snap s
            · exact h
        · rw [initiateFailAux params tn tl tr env snap s (fun hh => h2 hh.2.1)]
          split
          · exact inv3_shutdown snap snap s
          · exact h
      · rw [initiateFailAux params tn tl tr env snap s (fun hh => h1 hh.1)]
        split
        · exact inv3_shutdown snap snap s
        · exact h
  | updateST params tn tl tr e v snap =>
      simp only [opOk] at hop
      rw [Bool.and_eq_true] at hop
      have hsnap : snap = snap0 := of_decide_eq_true hop.1
      subst hsnap
      exact inv3_updateApps snap e v _ hop.2 h
  | shutdown snap =>
      simp only [opOk] at hop
      have hsnap : snap = snap0 := of_decide_eq_true hop
      subst hsnap
      exact inv3_shutdown snap snap s
  | addLaunched pid snap =>
      simp only [opOk] at hop
      have hsnap : snap = snap0 := of_decide_eq_true hop
      subst hsnap
      exact inv3_addLaunched pid snap s h
  | removeTerminated pid => exact inv3_removeTerminated pid snap0 s h
  | envRpFilter v => exact h

theorem inv3_run (snap0 : ProcSnap) (ops : List Op) :
    ∀ (s : Sys), ops.all (opOk snap0) = true → Inv3 snap0 s →
      Inv3 snap0 (ops.foldl step s) := by
  induction ops with
  | nil => exact fun s _ hs => hs
  | cons op ops ih =>
      intro s hops hs
      rw [List.all_cons, Bool.and_eq_true] at hops
      exact ih (step s op) hops.2 (inv3_step snap0 s op hops.1 hs)

theorem inv3_init (snap0 : ProcSnap) (rp0 : String) : Inv3 snap0 (initSys rp0) := by
  refine ⟨?_, ?_, ?_⟩
  · intro a p hm
    exact absurd hm Bool.false_ne_true
  · intro a p hm
    exact absurd hm Bool.false_ne_true
  · intro b hcb
    exact absurd hcb Bool.false_ne_true

/-- A `/proc` snapshot where pid 100 runs `pathA`. -/
def snapC3 : ProcSnap := ⟨[⟨100, pathA, 1⟩]⟩

/-- An `updateSplitTunnel` call whose excluded and vpn-only lists share a
path. -/
def opSharedW : Op :=
  Op.updateST ⟨scanW, [pathA], [pathA]⟩ tunNameW tunLocalW tunRemoteW [pathA] [pathA]
    snapC3

/-- Claim C3 counterexample: when the same path appears in both input
lists, `updateApps` inserts the scanned pid 100 into both the exclusions
map and the vpn-only map — the maps are not pid-disjoint. -/
theorem c3_counterexample :
    amMem (run rp0W [opSharedW]).exclusionsMap pathA 100 = true ∧
    amMem (run rp0W [opSharedW]).vpnOnlyMap pathA 100 = true := by
  refine ⟨by decide, by decide⟩

/-- Claim C3 (amended): after every trace of public operations whose
`excludeApps`/`vpnOnlyApps` lists are path-disjoint at every call and
which all consult the same `/proc` snapshot (stable pid→path resolution),
no pid appears simultaneously in a path set of the exclusions map and in a
path set of the vpn-only map. -/
theorem maps_pid_disjoint (rp0 : String) (snap0 : ProcSnap) (ops : List Op)
    (hops : ops.all (opOk snap0) = true) :
    ∀ a b p, ¬ (amMem (run rp0 ops).exclusionsMap a p = true ∧
                amMem (run rp0 ops).vpnOnlyMap b p = true) := by
  intro a b p hmem
  have h : Inv3 snap0 (run rp0 ops) :=
    inv3_run snap0 ops (initSys rp0) hops (inv3_init snap0 rp0)
  have ha := h.1 a p hmem.1
  have hb := h.2.1 b p hmem.2
  have hab : a = b := ha.symm.trans hb
  subst hab
  have hca := amContains_of_amMem _ _ _ hmem.1
  have hcb := amContains_of_amMem _ _ _ hmem.2
  rw [h.2.2 a hca] at hcb
  exact absurd hcb (by simp)

/-- An `updateSplitTunnel` call with disjoint lists on the shared
snapshot. -/
def opDisjW : Op :=
  Op.updateST ⟨scanW, [pathA], [pathC]⟩ tunNameW tunLocalW tunRemoteW [pathA] [pathC]
    snapW

/-- Claim C3 witness: the amended statement applied to a concrete
disjoint-listed trace. -/
theorem c3_witness :
    ¬ (amMem (run rp0W [opDisjW]).exclusionsMap pathA 10 = true ∧
       amMem (run rp0W [opDisjW]).vpnOnlyMap pathC 10 = true) :=
  maps_pid_disjoint rp0W snapW [opDisjW] (by decide) pathA pathC 10

/-! ### Claim C10 -/

theorem amMem_addLaunched_excl (pid : Nat) (snap : ProcSnap) (s : Sys) (a : String)
    (p : Nat) (h : amMem (addLaunchedApp pid snap s).exclusionsMap a p = true) :
    amMem s.exclusionsMap a p = true ∨ pathForPid snap p = a := by
  unfold addLaunchedApp at h
  dsimp only at h
  by_cases ha : pathForPid snap pid = emptyStr
  · rw [if_pos ha] at h
    exact Or.inl h
  · rw [if_neg ha] at h
    by_cases hce : amContains s.exclusionsMap (pathForPid snap pid) = true
    · rw [if_pos hce] at h
      by_cases hv : s.previousNetScan.isValid = true
      · rw [if_pos hv] at h
        rcases amMem_amInsertPid _ _ _ _ _ h with hold | ⟨hpq, hba⟩
        · exact Or.inl hold
        · subst hpq
          subst hba
          exact Or.inr rfl
      · rw [if_neg hv] at h
        exact Or.inl h
    · rw [if_neg hce] at h
      by_cases hcv : amContains s.vpnOnlyMap (pathForPid snap pid) = true
      · rw [if_pos hcv] at h
        exact Or.inl h
      · rw [if_neg hcv] at h
        exact Or.inl h

theorem amMem_addLaunched_vpn (pid : Nat) (snap : ProcSnap) (s : Sys) (a : String)
    (p : Nat) (h : amMem (addLaunchedApp pid snap s).vpnOnlyMap a p = true) :
    amMem s.vpnOnlyMap a p = true ∨ pathForPid snap p = a := by
  unfold addLaunchedApp at h
  dsimp only at h
  by_cases ha : pathForPid snap pid = emptyStr
  · rw [if_pos ha] at h
    exact Or.inl h
  · rw [if_neg ha] at h
    by_cases hce : amContains s.exclusionsMap (pathForPid snap pid) = true
    · rw [if_pos hce] at h
      by_cases hv : s.previousNetScan.isValid = true
      · rw [if_pos hv] at h
        exact Or.inl h
      · rw [if_neg hv] at h
        exact Or.inl h
    · rw [if_neg hce] at h
      by_cases hcv : amContains s.vpnOnlyMap (pathForPid snap pid) = true
      · rw [if_pos hcv] at h
        rcases amMem_amInsertPid _ _ _ _ _ h with hold | ⟨hpq, hba⟩
        · exact Or.inl hold
        · subst hpq
          subst hba
          exact Or.inr rfl
      · rw [if_neg hcv] at h
        exact Or.inl h

theorem amMem_step_excl (s : Sys) (op : Op) (a : String) (p : Nat)
    (h : amMem (step s op).exclusionsMap a p = true) :
    amMem s.exclusionsMap a p = true ∨ pathForPid (opSnap op) p = a := by
  cases op with
  | initiate params tn tl tr env snap =>
      have h0 : amMem (initiateConnection params tn tl tr env snap s).exclusionsMap a p
          = true := h
      by_cases h1 : env.socketOk = true
      · by_cases h2 : env.bindOk = true
        · by_cases h3 : env.subscribeOk = true
          · rw [initiate_success_eq params tn tl tr env snap s h1 h2 h3] at h0
            have h4 : amMem (setupReversePathFiltering env.rpReadOk
                (updateSplitTunnel params tn tl tr params.excludeApps params.vpnOnlyApps
                  snap
                  { (if s.sockFd ≠ -1 then shutdownConnection snap s else s) with
                      sockFd := env.fd,
                      kernel := setupFirewall
                        (if s.sockFd ≠ -1 then shutdownConnection snap s else s).kernel
                  })).exclusionsMap a p = true := h0
            rw [setupRPF_excl] at h4
            rcases amMem_updateApps_excl snap _ _ _ a p h4 with hold | hp
            · have hold2 : amMem (if s.sockFd ≠ -1 then shutdownConnection snap s
                  else s).exclusionsMap a p = true := hold
              by_cases hs : s.sockFd ≠ -1
              · rw [if_pos hs, shutdown_excl] at hold2
                exact absurd hold2 Bool.false_ne_true
              · rw [if_neg hs] at hold2
                exact Or.inl hold2
            · exact Or.inr hp
          · rw [initiateFailAux params tn tl tr env snap s (fun hh => h3 hh.2.2)] at h0
            by_cases hs : s.sockFd ≠ -1
            · rw [if_pos hs, shutdown_excl] at h0
              exact absurd h0 Bool.false_ne_true
            · rw [if_neg hs] at h0
              exact Or.inl h0
        · rw [initiateFailAux params tn tl tr env snap s (fun hh => h2 hh.2.1)] at h0
          by_cases hs : s.sockFd ≠ -1
          · rw [if_pos hs, shutdown_excl] at h0
            exact absurd h0 Bool.false_ne_true
          · rw [if_neg hs] at h0
            exact Or.inl h0
      · rw [initiateFailAux params tn tl tr env snap s (fun hh => h1 hh.1)] at h0
        by_cases hs : s.sockFd ≠ -1
        · rw [if_pos hs, shutdown_excl] at h0
          exact absurd h0 Bool.false_ne_true
        · rw [if_neg hs] at h0
          exact Or.inl h0
  | updateST params tn tl tr e v snap =>
      have h0 : amMem (updateApps snap e v
          (updateNetwork params tn tl tr s)).exclusionsMap a p = true := h
      rcases amMem_updateApps_excl snap e v _ a p h0 with hold | hp
      · exact Or.inl hold
      · exact Or.inr hp
  | shutdown snap =>
      have h0 : amMem (shutdownConnection snap s).exclusionsMap a p = true := h
      rw [shutdown_excl] at h0
      exact absurd h0 Bool.false_ne_true
  | addLaunched pid snap => exact amMem_addLaunched_excl pid snap s a p h
  | removeTerminated pid => exact Or.inl (amMem_amRemovePid _ _ _ _ h)
  | envRpFilter v => exact Or.inl h

theorem amMem_step_vpn (s : Sys) (op : Op) (a : String) (p : Nat)
    (h : amMem (step s op).vpnOnlyMap a p = true) :
    amMem s.vpnOnlyMap a p = true ∨ pathForPid (opSnap op) p = a := by
  cases op with
  | initiate params tn tl tr env snap =>
      have h0 : amMem (initiateConnection params tn tl tr env snap s).vpnOnlyMap a p
          = true := h
      by_cases h1 : env.socketOk = true
      · by_cases h2 : env.bindOk = true
        · by_cases h3 : env.subscribeOk = true
          · rw [initiate_success_eq params tn tl tr env snap s h1 h2 h3] at h0
            have h4 : amMem (setupReversePathFiltering env.rpReadOk
                (updateSplitTunnel params tn tl tr params.excludeApps params.vpnOnlyApps
                  snap
                  { (if s.sockFd ≠ -1 then shutdownConnection snap s else s) with
                      sockFd := env.fd,
                      kernel := setupFirewall
                        (if s.sockFd ≠ -1 then shutdownConnection snap s else s).kernel
                  })).vpnOnlyMap a p = true := h0
            rw [setupRPF_vpn] at h4
            rcases amMem_updateApps_vpn snap _ _ _ a p h4 with hold | hp
            · have hold2 : amMem (if s.sockFd ≠ -1 then shutdownConnection snap s
                  else s).vpnOnlyMap a p = true := hold
              by_cases hs : s.sockFd ≠ -1
              · rw [if_pos hs, shutdown_vpn] at hold2
                exact absurd hold2 Bool.false_ne_true
              · rw [if_neg hs] at hold2
                exact Or.inl hold2
            · exact Or.inr hp
          · rw [initiateFailAux params tn tl tr env snap s (fun hh => h3 hh.2.2)] at h0
            by_cases hs : s.sockFd ≠ -1
            · rw [if_pos hs, shutdown_vpn] at h0
              exact absurd h0 Bool.false_ne_true
            · rw [if_neg hs] at h0
              exact Or.inl h0
        · rw [initiateFailAux params tn tl tr env snap s (fun hh => h2 hh.2.1)] at h0
          by_cases hs : s.sockFd ≠ -1
          · rw [if_pos hs, shutdown_vpn] at h0
            exact absurd h0 Bool.false_ne_true
          · rw [if_neg hs] at h0
            exact Or.inl h0
      · rw [initiateFailAux params tn tl tr env snap s (fun hh => h1 hh.1)] at h0
        by_cases hs : s.sockFd ≠ -1
        · rw [if_pos hs, shutdown_vpn] at h0
          exact absurd h0 Bool.false_ne_true
        · rw [if_neg hs] at h0
          exact Or.inl h0
  | updateST params tn tl tr e v snap =>
      have h0 : amMem (updateApps snap e v
          (updateNetwork params tn tl tr s)).vpnOnlyMap a p = true := h
      rcases amMem_updateApps_vpn snap e v _ a p h0 with hold | hp
      · exact Or.inl hold
      · exact Or.inr hp
  | shutdown snap =>
      have h0 : amMem (shutdownConnection snap s).vpnOnlyMap a p = true := h
      rw [shutdown_vpn] at h0
      exact absurd h0 Bool.false_ne_true
  | addLaunched pid snap => exact amMem_addLaunched_vpn pid snap s a p h
  | removeTerminated pid => exact Or.inl (amMem_amRemovePid _ _ _ _ h)
  | envRpFilter v => exact Or.inl h

/-- Claim C10: a pid newly entering a path set of either tracking map
during any public operation (it is in that map's set afterwards but was
not before) has its executable path — resolved against the `/proc`
snapshot that operation consulted — equal to the map key.  Descendant
pids reached by the cgroup recursion only produce cgroup writes
(`addPidWrites` feeds `applyWrites`, which touches no map), so a child
process with a different executable sits in the specialized cgroup while
appearing in neither map. -/
theorem insertion_time_path (s : Sys) (op : Op) (a : String) (p : Nat)
    (hnew : (amMem (step s op).exclusionsMap a p = true ∧
              amMem s.exclusionsMap a p = false) ∨
            (amMem (step s op).vpnOnlyMap a p = true ∧
              amMem s.vpnOnlyMap a p = false)) :
    pathForPid (opSnap op) p = a := by
  rcases hnew with ⟨h1, h0⟩ | ⟨h1, h0⟩
  · rcases amMem_step_excl s op a p h1 with hold | hp
    · rw [hold] at h0
      exact absurd h0 (by simp)
    · exact hp
  · rcases amMem_step_vpn s op a p h1 with hold | hp
    · rw [hold] at h0
      exact absurd h0 (by simp)
    · exact hp

/-- An `updateSplitTunnel` tracking `pathA` on `snapW`. -/
def opC10 : Op :=
  Op.updateST (paramsW [pathA] []) tunNameW tunLocalW tunRemoteW [pathA] [] snapW

/-- Claim C10 witness: pid 10 newly enters the exclusions map under key
`pathA`, and its resolved path is indeed `pathA` (while child pid 20, with
a different executable, lands in the exclusions cgroup but in neither
map). -/
theorem c10_witness : pathForPid (opSnap opC10) 10 = pathA :=
  insertion_time_path (initSys rp0W) opC10 pathA 10 (Or.inl ⟨by decide, by decide⟩)

/-! ### Claim C4 -/

theorem updateNetwork_bypassRoute (params : FirewallParams) (tn tl tr : String) (s : Sys) :
    (updateNetwork params tn tl tr s).kernel.bypassRoute =
      if params.splitTunnelNetScan.gatewayIp = emptyStr ∨
          params.splitTunnelNetScan.interfaceName = emptyStr then
        s.kernel.bypassRoute
      else some (params.splitTunnelNetScan.gatewayIp,
        params.splitTunnelNetScan.interfaceName) := by
  unfold updateNetwork
  dsimp only
  rw [bypassRoute_updateRoutes]
  by_cases c1 : params.splitTunnelNetScan.gatewayIp = emptyStr ∨
      params.splitTunnelNetScan.interfaceName = emptyStr
  · rw [if_pos c1, if_pos c1]
    split
    · rw [bypassRoute_addRP, bypassRoute_removeRP]
      split
      · rw [bypassRoute_addRP, bypassRoute_removeRP]
        split
        · rw [bypassRoute_updateMasquerade]
        · rfl
      · split
        · rw [bypassRoute_updateMasquerade]
        · rfl
    · split
      · rw [bypassRoute_addRP, bypassRoute_removeRP]
        split
        · rw [bypassRoute_updateMasquerade]
        · rfl
      · split
        · rw [bypassRoute_updateMasquerade]
        · rfl
  · rw [if_neg c1, if_neg c1]

theorem updateNetwork_vpnOnlyRoute (params : FirewallParams) (tn tl tr : String) (s : Sys) :
    (updateNetwork params tn tl tr s).kernel.vpnOnlyRoute =
      if tr = emptyStr ∨ tn = emptyStr then s.kernel.vpnOnlyRoute
      else some (tr, tn) := by
  unfold updateNetwork
  dsimp only
  rw [vpnOnlyRoute_updateRoutes]
  by_cases c1 : tr = emptyStr ∨ tn = emptyStr
  · rw [if_pos c1, if_pos c1]
    split
    · rw [vpnOnlyRoute_addRP, vpnOnlyRoute_removeRP]
      split
      · rw [vpnOnlyRoute_addRP, vpnOnlyRoute_removeRP]
        split
        · rw [vpnOnlyRoute_updateMasquerade]
        · rfl
      · split
        · rw [vpnOnlyRoute_updateMasquerade]
        · rfl
    · split
      · rw [vpnOnlyRoute_addRP, vpnOnlyRoute_removeRP]
        split
        · rw [vpnOnlyRoute_updateMasquerade]
        · rfl
      · split
        · rw [vpnOnlyRoute_updateMasquerade]
        · rfl
  · rw [if_neg c1, if_neg c1]

theorem updateRoutes_fixpoint (gw i tn tr : String) (k : KernelState)
    (hb : ¬ (gw = emptyStr ∨ i = emptyStr) → k.bypassRoute = some (gw, i))
    (hv : ¬ (tr = emptyStr ∨ tn = emptyStr) → k.vpnOnlyRoute = some (tr, tn)) :
    updateRoutes gw i tn tr k = k := by
  unfold updateRoutes
  dsimp only
  by_cases c1 : gw = emptyStr ∨ i = emptyStr
  · rw [if_pos c1]
    by_cases c2 : tr = emptyStr ∨ tn = emptyStr
    · rw [if_pos c2]
    · rw [if_neg c2, ← hv c2]
  · rw [if_neg c1]
    by_cases c2 : tr = emptyStr ∨ tn = emptyStr
    · rw [if_pos c2, ← hb c1]
    · rw [if_neg c2, ← hb c1, ← hv c2]

theorem updateNetwork_fixpoint (params : FirewallParams) (tn tl tr : String) (s : Sys)
    (h1 : s.previousNetScan = params.splitTunnelNetScan)
    (h2 : s.previousTunnelDeviceLocalAddress = tl)
    (hb : ¬ (params.splitTunnelNetScan.gatewayIp = emptyStr ∨
        params.splitTunnelNetScan.interfaceName = emptyStr) →
      s.kernel.bypassRoute = some (params.splitTunnelNetScan.gatewayIp,
        params.splitTunnelNetScan.interfaceName))
    (hv : ¬ (tr = emptyStr ∨ tn = emptyStr) → s.kernel.vpnOnlyRoute = some (tr, tn)) :
    updateNetwork params tn tl tr s = s := by
  unfold updateNetwork
  dsimp only
  rw [if_neg (show ¬ (s.previousNetScan.interfaceName ≠
      params.splitTunnelNetScan.interfaceName) from by rw [h1]; exact fun hh => hh rfl)]
  rw [if_neg (show ¬ (s.previousNetScan.ipAddress ≠
      params.splitTunnelNetScan.ipAddress) from by rw [h1]; exact fun hh => hh rfl)]
  rw [if_neg (show ¬ (s.previousTunnelDeviceLocalAddress ≠ tl) from by
      rw [h2]; exact fun hh => hh rfl)]
  rw [updateRoutes_fixpoint params.splitTunnelNetScan.gatewayIp
    params.splitTunnelNetScan.interfaceName tn tr s.kernel hb hv]
  rw [← h1, ← h2]

/-- The complete cgroup write sequence of one `updateApps` call, in
program order. -/
def updateAppsWriteList (snap : ProcSnap) (e v : List String) (s : Sys) : List CgWrite :=
  removeAppWrites (defaultFuel snap) snap s.exclusionsMap
      (if s.previousNetScan.isValid then e else []) ++
    addAppsWrites (defaultFuel snap) snap
      (if s.previousNetScan.isValid then e else []) CGroup.vpnExclusions ++
    removeAppWrites (defaultFuel snap) snap s.vpnOnlyMap v ++
    addAppsWrites (defaultFuel snap) snap v CGroup.vpnOnly

/-- The kernel state after `updateApps`: only `cgroupOf` changes, by the
concatenated write sequences of the two remove/add phases, in program
order. -/
theorem updateApps_kernel (snap : ProcSnap) (e v : List String) (s : Sys) :
    (updateApps snap e v s).kernel =
      { s.kernel with
          cgroupOf := applyWrites (updateAppsWriteList snap e v s) s.kernel.cgroupOf } := by
  unfold updateApps updateAppsWriteList
  dsimp only
  rw [addAppsF_writes, addAppsF_writes]

theorem keysSub_updateApps_excl (snap : ProcSnap) (e v : List String) (s : Sys) :
    keysSub (updateApps snap e v s).exclusionsMap
      (if s.previousNetScan.isValid then e else []) := by
  rw [updateApps_excl]
  exact keysSub_addAppsF _ _ _ _ _ _ (keysSub_removeAppsMap _ _)
    (fun x hx => (memStr_iff _ _).mpr hx)

theorem keysSub_updateApps_vpn (snap : ProcSnap) (e v : List String) (s : Sys) :
    keysSub (updateApps snap e v s).vpnOnlyMap v := by
  rw [updateApps_vpn]
  exact keysSub_addAppsF _ _ _ _ _ _ (keysSub_removeAppsMap _ _)
    (fun x hx => (memStr_iff _ _).mpr hx)

/-- Claim C4 (amended): `updateSplitTunnel(p); updateSplitTunnel(p)` yields
the same observable kernel state as a single call *provided the call
removes no vpn-only app* (every tracked vpn-only path is in the new
`vpnOnlyApps` list).  Without that proviso the calls differ: the vpn-only
removal phase runs after the exclusions add phase, so a pid returned to
the default cgroup by the first call's removal is put back into the
exclusions cgroup by the second call (see the counterexample). -/
theorem updateSplitTunnel_idem (params : FirewallParams) (tn tl tr : String)
    (e v : List String) (snap : ProcSnap) (s : Sys)
    (h : keysSub s.vpnOnlyMap v) :
    (updateSplitTunnel params tn tl tr e v snap
      (updateSplitTunnel params tn tl tr e v snap s)).kernel =
    (updateSplitTunnel params tn tl tr e v snap s).kernel := by
  unfold updateSplitTunnel
  have hfix : updateNetwork params tn tl tr
      (updateApps snap e v (updateNetwork params tn tl tr s)) =
      updateApps snap e v (updateNetwork params tn tl tr s) := by
    refine updateNetwork_fixpoint params tn tl tr _ rfl rfl ?_ ?_
    · intro hc
      rw [show (updateApps snap e v (updateNetwork params tn tl tr s)).kernel.bypassRoute
          = (updateNetwork params tn tl tr s).kernel.bypassRoute from rfl]
      rw [updateNetwork_bypassRoute, if_neg hc]
    · intro hc
      rw [show (updateApps snap e v (updateNetwork params tn tl tr s)).kernel.vpnOnlyRoute
          = (updateNetwork params tn tl tr s).kernel.vpnOnlyRoute from rfl]
      rw [updateNetwork_vpnOnlyRoute, if_neg hc]
  rw [hfix]
  have hkE := keysSub_updateApps_excl snap e v (updateNetwork params tn tl tr s)
  have hkV := keysSub_updateApps_vpn snap e v (updateNetwork params tn tl tr s)
  have hA := updateApps_kernel snap e v
    (updateApps snap e v (updateNetwork params tn tl tr s))
  unfold updateAppsWriteList at hA
  rw [updateApps_prevScan] at hA
  rw [removeAppWrites_of_keysSub _ _ _ _ hkE, removeAppWrites_of_keysSub _ _ _ _ hkV] at hA
  simp only [List.nil_append, List.append_nil] at hA
  rw [hA]
  have hB := updateApps_kernel snap e v (updateNetwork params tn tl tr s)
  unfold updateAppsWriteList at hB
  rw [removeAppWrites_of_keysSub _ _ _ _
    (show keysSub (updateNetwork params tn tl tr s).vpnOnlyMap v from h)] at hB
  simp only [List.nil_append, List.append_nil] at hB
  apply KernelState.ext
  · dsimp only
    rw [hB]
    dsimp only
    rw [List.append_assoc]
    exact applyWrites_absorb _ _ _
  · rfl
  · rfl
  · rfl
  · rfl
  · rfl
  · rfl
  · rfl

/-- A first call tracking `pathB` (the child's executable) as vpn-only. -/
def opC4a : Op :=
  Op.updateST (paramsW [] [pathB]) tunNameW tunLocalW tunRemoteW [] [pathB] snapW

/-- The state in which `pathB` is tracked vpn-only with pid 20. -/
def sC4 : Sys := run rp0W [opC4a]

/-- The repeated call: exclude `pathA` and stop tracking `pathB`. -/
def updC4 (s : Sys) : Sys :=
  updateSplitTunnel (paramsW [pathA] []) tunNameW tunLocalW tunRemoteW [pathA] [] snapW s

/-- Claim C4 counterexample: starting from a state tracking vpn-only app
`pathB` (pid 20, a child of pid 10 which runs `pathA`), one
`updateSplitTunnel` that excludes `pathA` and drops `pathB` leaves pid 20
in the default cgroup (the vpn-only removal phase runs after the
exclusions add phase), but running the identical call a second time
leaves pid 20 in the exclusions cgroup: the observable kernel state of
one call and two calls differ. -/
theorem c4_counterexample :
    (updC4 sC4).kernel.cgroupOf 20 = CGroup.defaultCG ∧
    (updC4 (updC4 sC4)).kernel.cgroupOf 20 = CGroup.vpnExclusions := by
  refine ⟨by decide, by decide⟩

/-- Claim C4 witness: the amended idempotence at a concrete input whose
vpn-only map keys are all kept. -/
theorem c4_witness :
    (updateSplitTunnel (paramsW [pathA] []) tunNameW tunLocalW tunRemoteW [pathA] []
        snapW (updateSplitTunnel (paramsW [pathA] []) tunNameW tunLocalW tunRemoteW
          [pathA] [] snapW (initSys rp0W))).kernel =
    (updateSplitTunnel (paramsW [pathA] []) tunNameW tunLocalW tunRemoteW [pathA] []
        snapW (initSys rp0W)).kernel :=
  updateSplitTunnel_idem (paramsW [pathA] []) tunNameW tunLocalW tunRemoteW [pathA] []
    snapW (initSys rp0W) (fun x hx => absurd hx (List.not_mem_nil x))

end ProcTrackerModel
